import Mathlib

/-!
Verification of the container-image resolution core of renku-notebooks
(`renku_notebooks/api/classes/image.py`).

The Python code is shallowly embedded: strings are lists of characters,
the nine anchored regular expressions of `Image.from_path` become nine
explicit matchers (each regex is deterministic on a full-string match, so
each matcher returns at most one group dictionary), and the network is an
explicit oracle mapping HTTP requests to responses or connection errors.
-/

namespace RenkuNotebooks

/-- Python strings are modelled as lists of characters. -/
abbrev Str := List Char

/-- Split a list at the first occurrence of `sep`:
`splitOnce sep cs = some (a, b)` iff `cs = a ++ sep :: b` with `sep ∉ a`. -/
def splitOnce (sep : Char) : Str → Option (Str × Str)
  | [] => none
  | c :: cs =>
    if c = sep then some ([], cs)
    else (splitOnce sep cs).map (fun p => (c :: p.1, p.2))

/-- Split a list at the last occurrence of `sep`. -/
def splitOnceRight (sep : Char) (cs : Str) : Option (Str × Str) :=
  (splitOnce sep cs.reverse).map (fun p => (p.2.reverse, p.1.reverse))

/-- Python `str.split(sep)` (used only for POSIX path normalization). -/
def splitAll (sep : Char) : Str → List Str
  | [] => [[]]
  | c :: cs =>
    let r := splitAll sep cs
    if c = sep then [] :: r else (c :: r.headD []) :: r.tail

/-- Python `sep.join(parts)`. -/
def joinSep (sep : Char) : List Str → Str
  | [] => []
  | [p] => p
  | p :: ps => p ++ sep :: joinSep sep ps

/-! ### Character classes of the regular expressions in `Image.from_path`

The source builds its patterns from these classes
(`image.py`, lines 125-131):
* hostname: `[a-zA-Z0-9_\-]{1,}` `.` `[a-zA-Z0-9\._\-:]{1,}`
* docker_username: `[a-zA-Z0-9]{1,}` (plain `Char.isAlphanum`)
* username / docker_image / tag: `[a-zA-Z0-9\._\-]{1,}`
* image (multi-segment): `[a-zA-Z0-9\._\-\/]{1,}`
* sha: `[a-zA-Z0-9\._\-:]{1,}`
-/

/-- The class `[a-zA-Z0-9_\-]`: the part of a hostname before the first dot. -/
def isHostStartChar (c : Char) : Bool :=
  c.isAlphanum || c = '_' || c = '-'

/-- The class `[a-zA-Z0-9\._\-:]`: hostname after the first dot. -/
def isHostTailChar (c : Char) : Bool :=
  c.isAlphanum || c = '.' || c = '_' || c = '-' || c = ':'

/-- The class `[a-zA-Z0-9\._\-]`: the `username`, `docker_image` and `tag` groups. -/
def isNameChar (c : Char) : Bool :=
  c.isAlphanum || c = '.' || c = '_' || c = '-'

/-- The class `[a-zA-Z0-9\._\-\/]`: the multi-segment `image` group (may contain `/`). -/
def isPathNameChar (c : Char) : Bool :=
  isNameChar c || c = '/'

/-- The class `[a-zA-Z0-9\._\-:]`: the `sha` group (a digest may contain `:`). -/
def isShaChar (c : Char) : Bool :=
  isNameChar c || c = ':'

/-- The `hostname` group: `first.rest` where `first` is `[a-zA-Z0-9_\-]+`
(which excludes `.`), so the split is at the first dot. -/
def matchHostname (cs : Str) : Bool :=
  match splitOnce '.' cs with
  | none => false
  | some (a, b) =>
    !a.isEmpty && a.all isHostStartChar && !b.isEmpty && b.all isHostTailChar

/-- The common `hostname/username/image` prefix of the three self-hosted
grammars.  `hostname` and `username` cannot contain `/`, so they are exactly
the first two `/`-separated segments; `image` is the (possibly `/`-containing)
remainder. -/
def matchHostPath (cs : Str) : Option (Str × Str × Str) :=
  match splitOnce '/' cs with
  | none => none
  | some (host, rest) =>
    match splitOnce '/' rest with
    | none => none
    | some (user, img) =>
      if matchHostname host && !user.isEmpty && user.all isNameChar &&
          !img.isEmpty && img.all isPathNameChar then
        some (host, user, img)
      else none

/-- The group dictionary of one regex match, after the per-grammar defaults
(`fill`) have been applied (`match_dict.update(fill)`), but before the
username is folded into the image name. -/
structure MatchDict where
  hostname : Str
  username : Str
  image : Str
  tag : Str
deriving DecidableEq, Repr, Inhabited

/-- Default hostname `registry-1.docker.io` filled in by the Docker Hub
grammars. -/
def dockerHubHost : Str := "registry-1.docker.io".toList

/-- Default username `library` filled in by the bare-image grammars. -/
def libraryUser : Str := "library".toList

/-- Default tag `latest` filled in by the tagless grammars. -/
def latestTag : Str := "latest".toList

/-- Grammar 1, `nginx`: `^docker_image$`,
fill `{hostname, username := "library", tag := "latest"}`. -/
def regex_image (cs : Str) : Option MatchDict :=
  if !cs.isEmpty && cs.all isNameChar then
    some ⟨dockerHubHost, libraryUser, cs, latestTag⟩
  else none

/-- Grammar 2, `username/image`: `^docker_username\/docker_image$`,
fill `{hostname, tag := "latest"}`. -/
def regex_username_image (cs : Str) : Option MatchDict :=
  match splitOnce '/' cs with
  | none => none
  | some (u, i) =>
    if !u.isEmpty && u.all Char.isAlphanum && !i.isEmpty && i.all isNameChar then
      some ⟨dockerHubHost, u, i, latestTag⟩
    else none

/-- Grammar 3, `nginx:1.28`: `^docker_image:tag$`,
fill `{hostname, username := "library"}`. -/
def regex_image_tag (cs : Str) : Option MatchDict :=
  match splitOnce ':' cs with
  | none => none
  | some (i, t) =>
    if !i.isEmpty && i.all isNameChar && !t.isEmpty && t.all isNameChar then
      some ⟨dockerHubHost, libraryUser, i, t⟩
    else none

/-- Grammar 4, `username/image:1.0.0`: `^docker_username\/docker_image:tag$`,
fill `{hostname}`. -/
def regex_username_image_tag (cs : Str) : Option MatchDict :=
  match splitOnce '/' cs with
  | none => none
  | some (u, rest) =>
    match splitOnce ':' rest with
    | none => none
    | some (i, t) =>
      if !u.isEmpty && u.all Char.isAlphanum && !i.isEmpty && i.all isNameChar &&
          !t.isEmpty && t.all isNameChar then
        some ⟨dockerHubHost, u, i, t⟩
      else none

/-- Grammar 5, `nginx@sha256:...`: `^docker_image@sha$`,
fill `{hostname, username := "library"}`. -/
def regex_image_sha (cs : Str) : Option MatchDict :=
  match splitOnce '@' cs with
  | none => none
  | some (i, s) =>
    if !i.isEmpty && i.all isNameChar && !s.isEmpty && s.all isShaChar then
      some ⟨dockerHubHost, libraryUser, i, s⟩
    else none

/-- Grammar 6, `username/image@sha256:...`: `^docker_username\/docker_image@sha$`,
fill `{hostname}`. -/
def regex_username_image_sha (cs : Str) : Option MatchDict :=
  match splitOnce '/' cs with
  | none => none
  | some (u, rest) =>
    match splitOnce '@' rest with
    | none => none
    | some (i, s) =>
      if !u.isEmpty && u.all Char.isAlphanum && !i.isEmpty && i.all isNameChar &&
          !s.isEmpty && s.all isShaChar then
        some ⟨dockerHubHost, u, i, s⟩
      else none

/-- Grammar 7, `gitlab.com/username/project[/...]`:
`^hostname\/username\/image$`, fill `{tag := "latest"}`. -/
def regex_hostname_image (cs : Str) : Option MatchDict :=
  match matchHostPath cs with
  | none => none
  | some (h, u, i) => some ⟨h, u, i, latestTag⟩

/-- Grammar 8, `gitlab.com/username/project[/...]:1.2.3`:
`^hostname\/username\/image:tag$`, no fill.  `tag` contains no `:` and lies at
the end of the string, so the separating `:` is the last one. -/
def regex_hostname_image_tag (cs : Str) : Option MatchDict :=
  match splitOnceRight ':' cs with
  | none => none
  | some (pre, t) =>
    match matchHostPath pre with
    | none => none
    | some (h, u, i) =>
      if !t.isEmpty && t.all isNameChar then some ⟨h, u, i, t⟩ else none

/-- Grammar 9, `gitlab.com/username/project[/...]@sha256:...`:
`^hostname\/username\/image@sha$`, no fill.  No group may contain `@`, so the
separating `@` is the first (and only) one. -/
def regex_hostname_image_sha (cs : Str) : Option MatchDict :=
  match splitOnce '@' cs with
  | none => none
  | some (pre, s) =>
    match matchHostPath pre with
    | none => none
    | some (h, u, i) =>
      if !s.isEmpty && s.all isShaChar then some ⟨h, u, i, s⟩ else none

/-- The ordered grammar list of `Image.from_path` (`image.py` lines 134-178). -/
def imageRegexes : List (Str → Option MatchDict) :=
  [regex_image, regex_username_image, regex_image_tag, regex_username_image_tag,
   regex_image_sha, regex_username_image_sha, regex_hostname_image,
   regex_hostname_image_tag, regex_hostname_image_sha]

/-- The parsed image reference (`Image` dataclass, lines 113-117). -/
structure Image where
  hostname : Str
  name : Str
  tag : Str
deriving DecidableEq, Repr, Inhabited

/-- Lines 186-189 and 192: the username is lumped into the image name
(`match_dict["image"] = match_dict["username"] + "/" + match_dict["image"]`)
and the dictionary becomes an `Image`. -/
def MatchDict.toImage (m : MatchDict) : Image :=
  ⟨m.hostname, m.username ++ '/' :: m.image, m.tag⟩

/-- The match-collection loop of `from_path` (lines 180-190): every grammar
that fully matches contributes one interpretation, in grammar order. -/
def imageMatches (path : Str) : List MatchDict :=
  imageRegexes.filterMap (fun r => r path)

deriving instance DecidableEq for Except

/-- Errors raised by `Image.from_path` (`ImageParseError`, lines 193-198). -/
inductive ImageParseErr where
  /-- the error "Cannot parse the image ..." -/
  | cannotParse (path : Str)
  /-- the error "Cannot parse the image ..., too many interpretations ..." -/
  | tooManyInterpretations (path : Str) (candidates : List Image)
deriving DecidableEq, Repr

/-- The classmethod `Image.from_path` (lines 119-198): collect all full-grammar matches, then
succeed only when there is exactly one. -/
def Image.from_path (path : Str) : Except ImageParseErr Image :=
  let ms := (imageMatches path).map MatchDict.toImage
  if ms.length = 1 then .ok (ms.headD ⟨[], [], []⟩)
  else if 1 < ms.length then .error (.tooManyInterpretations path ms)
  else .error (.cannotParse path)

/-- Modelled from the spec: the repository has no canonical serialization
method on `Image`, so the canonical string form follows the spec's reference
grammar, which attaches a tag with `:` and a digest with `@`
(`[:tag|@digest]`, exactly one of the two set).  The `Image` dataclass stores
both in its `tag` field; only a digest may contain a colon (the `tag` regex
group excludes `:`, the `sha` group allows it), so a colon in the stored
field marks the digest form and is serialized with `@`, every other value
with `:`.  (A colon-free digest is indistinguishable from a tag inside the
dataclass and serializes with `:`; either form re-parses to the same
`Image`.) -/
def Image.canonicalPath (img : Image) : Str :=
  if ':' ∈ img.tag then img.hostname ++ '/' :: img.name ++ '@' :: img.tag
  else img.hostname ++ '/' :: img.name ++ ':' :: img.tag

/-! ### The registry HTTP layer

`ImageRepoDockerAPI` talks to the registry through `requests.get`.  The
network is modelled as a deterministic oracle from requests to outcomes; an
outcome is either a response or a `requests.ConnectionError`.  A response
body is `none` when `.json()` would fail on it, otherwise the parsed JSON
value.  The `Www-Authenticate` header is modelled by the parameter map that
`werkzeug.datastructures.WWWAuthenticate.from_header` extracts from it
(`none` when the header is absent). -/

/-- A JSON value, as returned by `response.json()`.  `null` doubles as the
Python `None`. -/
inductive JValue where
  | null
  | bool (b : Bool)
  | num (n : Int)
  | str (s : String)
  | arr (elems : List JValue)
  | obj (fields : List (String × JValue))
deriving Inhabited, Repr

/-- Python exceptions that the embedded functions can raise. -/
inductive PyErr where
  /-- the `errors.user.ImageParseError` exception -/
  | imageParseError (msg : String)
  /-- the `KeyError` of `dict.pop` on a missing key -/
  | keyError (key : String)
  /-- an uncaught `requests.ConnectionError` -/
  | connectionError
  /-- the error of `response.json()` on a body that is not valid JSON -/
  | jsonDecodeError
  /-- the `AttributeError` of `.get(...)` on a non-dict JSON value -/
  | attributeError
  /-- the `TypeError` of `Path(...)` applied to a non-string value -/
  | typeError
deriving DecidableEq, Repr

/-- Python `d.get(key, default)` on a parsed JSON value: raises `AttributeError`
unless the value is a JSON object. -/
def JValue.get (j : JValue) (key : String) (default : JValue) :
    Except PyErr JValue :=
  match j with
  | .obj fields => .ok ((fields.lookup key).getD default)
  | _ => .error .attributeError

/-- Python `x is None` for a value decoded from JSON: JSON `null` decodes to `None`. -/
def JValue.isNone : JValue → Bool
  | .null => true
  | _ => false

/-- Python truthiness of a value decoded from JSON (`if token:`). -/
def JValue.pyTruthy : JValue → Bool
  | .null => false
  | .bool b => b
  | .num n => n ≠ 0
  | .str s => s ≠ ""
  | .arr e => !e.isEmpty
  | .obj f => !f.isEmpty

/-- Python `x == ""` for a value decoded from JSON. -/
def JValue.eqEmptyString : JValue → Bool
  | .str s => s = ""
  | _ => false

/-- Python `str(x)` for a value decoded from JSON, as used by f-string interpolation
(`f"Bearer {token}"`, `f".../blobs/{config_digest}"`).  The registry API
yields strings (or `None`) in these positions; composite values are rendered
structurally. -/
def JValue.pyStr : JValue → String
  | .null => "None"
  | .bool true => "True"
  | .bool false => "False"
  | .num n => toString n
  | .str s => s
  | .arr elems => "[" ++ String.intercalate ", " (pyStrList elems) ++ "]"
  | .obj fields => "\x7b" ++ String.intercalate ", " (pyStrFields fields) ++ "\x7d"
where
  /-- renders the elements of a JSON array -/
  pyStrList : List JValue → List String
    | [] => []
    | x :: xs => x.pyStr :: pyStrList xs
  /-- renders the fields of a JSON object -/
  pyStrFields : List (String × JValue) → List String
    | [] => []
    | (k, v) :: xs => (k ++ ": " ++ v.pyStr) :: pyStrFields xs

/-- An HTTP GET request as issued by `requests.get(url, params=, headers=)`. -/
structure HttpRequest where
  url : String
  params : List (String × String) := []
  headers : List (String × String) := []
deriving DecidableEq, Repr

/-- An HTTP response.  `wwwAuthenticate` models the `Www-Authenticate` header
as the parameter map parsed from it; `body` is the JSON value of the body, or
`none` when `.json()` would raise. -/
structure HttpResponse where
  status : Nat
  wwwAuthenticate : Option (List (String × String)) := none
  body : Option JValue := none

/-- Outcome of one `requests.get` call. -/
inductive NetResult where
  | ok (response : HttpResponse)
  | connError

/-- The network oracle: what each request returns. -/
def Net := HttpRequest → NetResult

/-- Assignment `d[k] = v` on a Python dict kept as an insertion-ordered list. -/
def dictSet : List (String × String) → String → String → List (String × String)
  | [], k, v => [(k, v)]
  | (k', v') :: rest, k, v =>
    if k' = k then (k, v) :: rest else (k', v') :: dictSet rest k v

/-- Python `d.pop(k)` on a dict kept as an insertion-ordered list: the value
and the dict without the key, or `none` when the key is missing (`KeyError`). -/
def dictPop : List (String × String) → String → Option (String × List (String × String))
  | [], _ => none
  | (k', v) :: rest, k =>
    if k' = k then some (v, rest)
    else (dictPop rest k).map (fun p => (p.1, (k', v) :: p.2))

/-- The url-safe base64 alphabet of `base64.urlsafe_b64encode`. -/
def base64UrlsafeAlphabet : List Char :=
  "ABCDEFGHIJKLMNOPQRSTUVWXYZabcdefghijklmnopqrstuvwxyz0123456789-_".toList

/-- One base64 output character. -/
def base64Char (n : Nat) : Char := base64UrlsafeAlphabet.getD n '='

/-- Base64 of a byte list, 3 bytes to 4 characters, `=`-padded. -/
def base64Chunks : List Nat → List Char
  | [] => []
  | [b1] => [base64Char (b1 / 4), base64Char (b1 % 4 * 16), '=', '=']
  | [b1, b2] =>
    [base64Char (b1 / 4), base64Char (b1 % 4 * 16 + b2 / 16),
     base64Char (b2 % 16 * 4), '=']
  | b1 :: b2 :: b3 :: rest =>
    base64Char (b1 / 4) :: base64Char (b1 % 4 * 16 + b2 / 16) ::
    base64Char (b2 % 16 * 4 + b3 / 64) :: base64Char (b3 % 64) ::
    base64Chunks rest

/-- Python `base64.urlsafe_b64encode(s.encode()).decode()`. -/
def base64UrlsafeEncode (s : String) : String :=
  String.mk (base64Chunks (s.toUTF8.toList.map UInt8.toNat))

/-- The Docker V2 manifest media type (`ManifestTypes.docker_v2`). -/
def manifestTypeDockerV2 : String := "application/vnd.docker.distribution.manifest.v2+json"

/-- The OCI V1 manifest media type (`ManifestTypes.oci_v1`). -/
def manifestTypeOciV1 : String := "application/vnd.oci.image.manifest.v1+json"

/-- The `ImageRepoDockerAPI` dataclass (lines 19-25). -/
structure ImageRepoDockerAPI where
  hostname : Str
  oauth2_token : Option String := none
deriving DecidableEq, Repr

/-- The url `f"https://.../v2/.../manifests/..."` of lines 32 and 60. -/
def imageDigestUrl (hostname : Str) (image : Image) : String :=
  "https://" ++ String.mk hostname ++ "/v2/" ++ String.mk image.name ++
    "/manifests/" ++ String.mk image.tag

/-- The unauthenticated probe request of `_get_docker_token` (line 34). -/
def probeRequest (api : ImageRepoDockerAPI) (image : Image) : HttpRequest :=
  { url := imageDigestUrl api.hostname image }

/-- Truthiness of `self.oauth2_token` (`None` and `""` are falsy). -/
def ImageRepoDockerAPI.tokenTruthy (api : ImageRepoDockerAPI) : Bool :=
  match api.oauth2_token with
  | none => false
  | some t => t ≠ ""

/-- The token-exchange request of `_get_docker_token` (lines 45-49): GET the
realm with the remaining challenge parameters, `Accept: application/json`,
and, when a credential is configured, HTTP Basic auth with
`base64("oauth2:" + token)`. -/
def tokenRequest (api : ImageRepoDockerAPI) (realm : String)
    (params : List (String × String)) : HttpRequest :=
  { url := realm
    params := params
    headers :=
      let h := [("Accept", "application/json")]
      match api.oauth2_token with
      | some t =>
        if t ≠ "" then
          dictSet h "Authorization"
            ("Basic " ++ base64UrlsafeEncode ("oauth2:" ++ t))
        else h
      | none => h }

/-- The method `ImageRepoDockerAPI._get_docker_token` (lines 27-50).  Returns the value
of the `token` field of the exchange response (`JValue.null` models the
Python `None`), together with the list of requests issued. -/
def ImageRepoDockerAPI._get_docker_token (api : ImageRepoDockerAPI) (net : Net)
    (image : Image) : Except PyErr JValue × List HttpRequest :=
  let probe := probeRequest api image
  -- try: auth_req = requests.get(...) except ConnectionError: auth_req = None
  let auth_req : Option HttpResponse :=
    match net probe with
    | .connError => none
    | .ok r => some r
  match auth_req with
  | none => (.ok .null, [probe])
  | some r =>
    match r.wwwAuthenticate with
    | none => (.ok .null, [probe])
    | some wwwAuthParams =>
      if r.status ≠ 401 then (.ok .null, [probe])
      else
        -- params = {**www_auth.parameters}; realm = params.pop("realm")
        match dictPop wwwAuthParams "realm" with
        | none => (.error (.keyError "realm"), [probe])
        | some (realm, params) =>
          let req := tokenRequest api realm params
          match net req with
          | .connError => (.error .connectionError, [probe, req])
          | .ok token_req =>
            -- return token_req.json().get("token")
            match token_req.body with
            | none => (.error .jsonDecodeError, [probe, req])
            | some j =>
              match j.get "token" .null with
              | .error e => (.error e, [probe, req])
              | .ok v => (.ok v, [probe, req])

/-- The first manifest request of `get_image_manifest` (lines 60-64):
`Accept` is the Docker V2 media type and, when a token was obtained, a
`Bearer` authorization header is attached. -/
def manifestRequestDockerV2 (image : Image) (token : JValue) : HttpRequest :=
  { url := imageDigestUrl image.hostname image
    headers :=
      let h := [("Accept", manifestTypeDockerV2)]
      if token.pyTruthy then dictSet h "Authorization" ("Bearer " ++ token.pyStr)
      else h }

/-- The retry request of `get_image_manifest` (lines 66-67): the same headers
with `Accept` overwritten by the OCI V1 media type. -/
def manifestRequestOciV1 (image : Image) (token : JValue) : HttpRequest :=
  { url := imageDigestUrl image.hostname image
    headers := dictSet (manifestRequestDockerV2 image token).headers
      "Accept" manifestTypeOciV1 }

/-- The method `ImageRepoDockerAPI.get_image_manifest` (lines 52-70).  `JValue.null`
models the Python `None` returned when neither media type yields a 200. -/
def ImageRepoDockerAPI.get_image_manifest (api : ImageRepoDockerAPI) (net : Net)
    (image : Image) : Except PyErr JValue × List HttpRequest :=
  if image.hostname ≠ api.hostname then
    (.error (.imageParseError "The image hostname does not match the image repository"), [])
  else
    match api._get_docker_token net image with
    | (.error e, tr) => (.error e, tr)
    | (.ok token, tr) =>
      let req1 := manifestRequestDockerV2 image token
      match net req1 with
      | .connError => (.error .connectionError, tr ++ [req1])
      | .ok res1 =>
        if res1.status ≠ 200 then
          let req2 := manifestRequestOciV1 image token
          match net req2 with
          | .connError => (.error .connectionError, tr ++ [req1, req2])
          | .ok res2 =>
            if res2.status ≠ 200 then (.ok .null, tr ++ [req1, req2])
            else
              match res2.body with
              | none => (.error .jsonDecodeError, tr ++ [req1, req2])
              | some j => (.ok j, tr ++ [req1, req2])
        else
          match res1.body with
          | none => (.error .jsonDecodeError, tr ++ [req1])
          | some j => (.ok j, tr ++ [req1])

/-- The method `ImageRepoDockerAPI.image_exists` (lines 72-74):
`get_image_manifest(image) is not None`. -/
def ImageRepoDockerAPI.image_exists (api : ImageRepoDockerAPI) (net : Net)
    (image : Image) : Except PyErr Bool × List HttpRequest :=
  match api.get_image_manifest net image with
  | (.error e, tr) => (.error e, tr)
  | (.ok m, tr) => (.ok (!m.isNone), tr)

/-- The config-blob request of `get_image_config` (lines 85-91). -/
def blobRequest (image : Image) (configDigest token : JValue) : HttpRequest :=
  { url := "https://" ++ String.mk image.hostname ++ "/v2/" ++
      String.mk image.name ++ "/blobs/" ++ configDigest.pyStr
    headers := [("Accept", "application/json"),
                ("Authorization", "Bearer " ++ token.pyStr)] }

/-- The method `ImageRepoDockerAPI.get_image_config` (lines 76-94). -/
def ImageRepoDockerAPI.get_image_config (api : ImageRepoDockerAPI) (net : Net)
    (image : Image) : Except PyErr JValue × List HttpRequest :=
  match api.get_image_manifest net image with
  | (.error e, tr) => (.error e, tr)
  | (.ok manifest, tr) =>
    if manifest.isNone then (.ok .null, tr)
    else
      -- config_digest = manifest.get("config", {}).get("digest")
      match manifest.get "config" (.obj []) with
      | .error e => (.error e, tr)
      | .ok cfg =>
        match cfg.get "digest" .null with
        | .error e => (.error e, tr)
        | .ok configDigest =>
          if configDigest.isNone then (.ok .null, tr)
          else
            match api._get_docker_token net image with
            | (.error e, tr2) => (.error e, tr ++ tr2)
            | (.ok token, tr2) =>
              let req := blobRequest image configDigest token
              match net req with
              | .connError => (.error .connectionError, tr ++ tr2 ++ [req])
              | .ok res =>
                if res.status ≠ 200 then (.ok .null, tr ++ tr2 ++ [req])
                else
                  match res.body with
                  | none => (.error .jsonDecodeError, tr ++ tr2 ++ [req])
                  | some j => (.ok j, tr ++ tr2 ++ [req])

/-- The `PurePosixPath` normalization performed by `pathlib.Path`: duplicate
slashes and `.` components collapse, a lone leading `//` is preserved, the
empty path is `.`. -/
def posixPath (s : String) : String :=
  let cs := s.toList
  let root : Str :=
    if cs.take 2 = ['/', '/'] ∧ cs.take 3 ≠ ['/', '/', '/'] then ['/', '/']
    else if cs.take 1 = ['/'] then ['/'] else []
  let parts := (splitAll '/' cs).filter (fun p => !p.isEmpty && p ≠ ['.'])
  let out := root ++ joinSep '/' parts
  if out.isEmpty then "." else String.mk out

/-- The method `ImageRepoDockerAPI.image_workdir` (lines 96-107).  `some p` is a
returned `Path`, `none` is the Python `None` returned when no config was
retrieved. -/
def ImageRepoDockerAPI.image_workdir (api : ImageRepoDockerAPI) (net : Net)
    (image : Image) : Except PyErr (Option String) × List HttpRequest :=
  match api.get_image_config net image with
  | (.error e, tr) => (.error e, tr)
  | (.ok config, tr) =>
    if config.isNone then (.ok none, tr)
    else
      -- nested_config = config.get("config", {})
      match config.get "config" (.obj []) with
      | .error e => (.error e, tr)
      | .ok nested =>
        if nested.isNone then (.ok none, tr)
        else
          -- workdir = nested_config.get("WorkingDir", "/")
          match nested.get "WorkingDir" (.str "/") with
          | .error e => (.error e, tr)
          | .ok workdir0 =>
            let workdir := if workdir0.eqEmptyString then JValue.str "/" else workdir0
            -- return Path(workdir)
            match workdir with
            | .str s => (.ok (some (posixPath s)), tr)
            | _ => (.error .typeError, tr)

/-- The method `ImageRepoDockerAPI.with_oauth2_token` (lines 109-110):
`return ImageRepoDockerAPI(self.hostname, oauth2_token)`. -/
def ImageRepoDockerAPI.with_oauth2_token (api : ImageRepoDockerAPI)
    (oauth2_token : String) : ImageRepoDockerAPI :=
  ⟨api.hostname, some oauth2_token⟩

/-! ### Toolkit lemmas about the split functions and character classes -/

theorem ne_nil_of_isEmpty_eq_false {l : Str} (h : l.isEmpty = false) :
    l ≠ [] := by
  cases l <;> simp_all

theorem splitOnce_eq_none_iff {sep : Char} {cs : Str} :
    splitOnce sep cs = none ↔ sep ∉ cs := by
  induction cs with
  | nil => simp [splitOnce]
  | cons c cs ih =>
    by_cases h : c = sep
    · subst h; simp [splitOnce]
    · rw [splitOnce, if_neg h, Option.map_eq_none', ih]
      simp only [List.mem_cons, not_or]
      constructor
      · intro hn; exact ⟨fun hh => h hh.symm, hn⟩
      · intro hn; exact hn.2

theorem splitOnce_eq_some {sep : Char} {cs a b : Str}
    (h : splitOnce sep cs = some (a, b)) : cs = a ++ sep :: b ∧ sep ∉ a := by
  induction cs generalizing a b with
  | nil => simp [splitOnce] at h
  | cons c cs ih =>
    by_cases hc : c = sep
    · subst hc
      rw [splitOnce, if_pos rfl] at h
      obtain ⟨rfl, rfl⟩ : [] = a ∧ cs = b := by
        constructor <;> injection h with h' <;> simp_all
      simp
    · rw [splitOnce, if_neg hc, Option.map_eq_some'] at h
      obtain ⟨⟨a', b'⟩, hsplit, heq⟩ := h
      obtain ⟨rfl, rfl⟩ : c :: a' = a ∧ b' = b := by
        simpa using heq
      obtain ⟨h1, h2⟩ := ih hsplit
      refine ⟨by simp [h1], ?_⟩
      simp only [List.mem_cons, not_or]
      exact ⟨fun hh => hc hh.symm, h2⟩

theorem splitOnce_append {sep : Char} {xs : Str} (ys : Str) (h : sep ∉ xs) :
    splitOnce sep (xs ++ sep :: ys) = some (xs, ys) := by
  induction xs with
  | nil => simp [splitOnce]
  | cons x xs ih =>
    simp only [List.mem_cons, not_or] at h
    have hx : ¬ x = sep := fun hh => h.1 hh.symm
    simp [splitOnce, hx, ih h.2]

theorem splitOnce_eq_none {sep : Char} {cs : Str} (h : sep ∉ cs) :
    splitOnce sep cs = none := splitOnce_eq_none_iff.mpr h

theorem splitOnceRight_eq_some {sep : Char} {cs a b : Str}
    (h : splitOnceRight sep cs = some (a, b)) : cs = a ++ sep :: b ∧ sep ∉ b := by
  simp only [splitOnceRight, Option.map_eq_some'] at h
  obtain ⟨⟨a', b'⟩, hsplit, heq⟩ := h
  obtain ⟨rfl, rfl⟩ : b'.reverse = a ∧ a'.reverse = b := by simpa using heq
  obtain ⟨h1, h2⟩ := splitOnce_eq_some hsplit
  constructor
  · have := congrArg List.reverse h1
    simpa using this
  · simpa using h2

theorem splitOnceRight_append {sep : Char} (xs : Str) {ys : Str} (h : sep ∉ ys) :
    splitOnceRight sep (xs ++ sep :: ys) = some (xs, ys) := by
  have hrev : (xs ++ sep :: ys).reverse = ys.reverse ++ sep :: xs.reverse := by
    simp
  unfold splitOnceRight
  rw [hrev, splitOnce_append _ (by simpa using h)]
  simp

theorem splitOnceRight_eq_none {sep : Char} {cs : Str} (h : sep ∉ cs) :
    splitOnceRight sep cs = none := by
  have h2 : sep ∉ cs.reverse := by simpa using h
  unfold splitOnceRight
  rw [splitOnce_eq_none h2]
  rfl

theorem all_eq_false_of_mem {p : Char → Bool} {c : Char} {cs : Str}
    (hm : c ∈ cs) (hp : p c = false) : cs.all p = false := by
  rw [List.all_eq_false]
  exact ⟨c, hm, by simp [hp]⟩

theorem all_imp {p q : Char → Bool} {cs : Str}
    (h : ∀ c, p c = true → q c = true) (hall : cs.all p = true) :
    cs.all q = true := by
  rw [List.all_eq_true] at hall ⊢
  exact fun c hc => h c (hall c hc)

theorem not_mem_of_all {p : Char → Bool} {c : Char} {cs : Str}
    (hall : cs.all p = true) (hp : p c = false) : c ∉ cs := by
  intro hm
  rw [List.all_eq_true] at hall
  simp [hall c hm] at hp

theorem isPathNameChar_of_isNameChar {c : Char} (h : isNameChar c = true) :
    isPathNameChar c = true := by simp [isPathNameChar, h]

theorem isShaChar_of_isNameChar {c : Char} (h : isNameChar c = true) :
    isShaChar c = true := by simp [isShaChar, h]

theorem isNameChar_of_alphanum {c : Char} (h : c.isAlphanum = true) :
    isNameChar c = true := by simp [isNameChar, h]

theorem isNameChar_of_isShaChar_ne_colon {c : Char} (h : isShaChar c = true)
    (hne : c ≠ ':') : isNameChar c = true := by
  simp only [isShaChar, Bool.or_eq_true, decide_eq_true_eq] at h
  rcases h with h | h
  · exact h
  · exact absurd h hne

/-- Inversion of `matchHostname`: the string splits at its first dot into a
nonempty start-class part and a nonempty tail-class part. -/
theorem matchHostname_inv {h : Str} (hm : matchHostname h = true) :
    ∃ a b, h = a ++ '.' :: b ∧ '.' ∉ a ∧ a ≠ [] ∧
      a.all isHostStartChar = true ∧ b ≠ [] ∧ b.all isHostTailChar = true := by
  unfold matchHostname at hm
  rcases hsplit : splitOnce '.' h with _ | ⟨a, b⟩ <;> rw [hsplit] at hm
  · simp at hm
  · simp only [Bool.and_eq_true, Bool.not_eq_true'] at hm
    obtain ⟨heq, hna⟩ := splitOnce_eq_some hsplit
    exact ⟨a, b, heq, hna, ne_nil_of_isEmpty_eq_false hm.1.1.1, hm.1.1.2,
      ne_nil_of_isEmpty_eq_false hm.1.2, hm.2⟩

/-- Every character of a matched hostname is in the hostname tail class
(the start class and the separating dot are contained in it). -/
theorem matchHostname_chars {h : Str} (hm : matchHostname h = true) :
    h.all isHostTailChar = true := by
  obtain ⟨a, b, heq, -, -, ha, -, hb⟩ := matchHostname_inv hm
  subst heq
  rw [List.all_eq_true]
  intro c hc
  rcases (by simpa using hc : c ∈ a ∨ c = '.' ∨ c ∈ b) with hc | hc | hc
  · have := (List.all_eq_true.mp ha) c hc
    simp only [isHostStartChar, Bool.or_eq_true] at this
    simp only [isHostTailChar, Bool.or_eq_true]
    tauto
  · subst hc; decide
  · exact (List.all_eq_true.mp hb) c hc

theorem not_slash_mem_of_matchHostname {h : Str} (hm : matchHostname h = true) :
    '/' ∉ h :=
  not_mem_of_all (matchHostname_chars hm) (by decide)

theorem not_at_mem_of_matchHostname {h : Str} (hm : matchHostname h = true) :
    '@' ∉ h :=
  not_mem_of_all (matchHostname_chars hm) (by decide)

/-- A matched hostname contains a dot, and so is never all-alphanumeric. -/
theorem not_all_alphanum_of_matchHostname {h : Str}
    (hm : matchHostname h = true) : h.all Char.isAlphanum = false := by
  obtain ⟨a, b, heq, -, -, -, -, -⟩ := matchHostname_inv hm
  subst heq
  exact all_eq_false_of_mem (c := '.') (by simp) (by decide)

theorem isEmpty_eq_false_of_ne_nil {l : Str} (h : l ≠ []) :
    l.isEmpty = false := by
  cases l <;> simp_all

/-- The structural facts shared by every group dictionary any grammar can
produce: a well-formed hostname, a nonempty name-class username, a nonempty
path-class image and a nonempty sha-class tag. -/
def ValidMatch (m : MatchDict) : Prop :=
  matchHostname m.hostname = true ∧
  m.username ≠ [] ∧ m.username.all isNameChar = true ∧
  m.image ≠ [] ∧ m.image.all isPathNameChar = true ∧
  m.tag ≠ [] ∧ m.tag.all isShaChar = true

/-- Inversion of the shared `hostname/username/image` prefix matcher. -/
theorem matchHostPath_eq_some {cs h u i : Str}
    (hm : matchHostPath cs = some (h, u, i)) :
    cs = h ++ ('/' :: (u ++ ('/' :: i))) ∧ matchHostname h = true ∧
      u ≠ [] ∧ u.all isNameChar = true ∧ i ≠ [] ∧ i.all isPathNameChar = true := by
  unfold matchHostPath at hm
  rcases h1 : splitOnce '/' cs with _ | ⟨host, rest⟩ <;> rw [h1] at hm <;>
    dsimp only at hm
  · simp at hm
  · rcases h2 : splitOnce '/' rest with _ | ⟨user, img⟩ <;> rw [h2] at hm <;>
      dsimp only at hm
    · simp at hm
    · split_ifs at hm with hc
      · obtain ⟨rfl, rfl, rfl⟩ : host = h ∧ user = u ∧ img = i := by
          simpa using hm
        simp only [Bool.and_eq_true, Bool.not_eq_true'] at hc
        obtain ⟨hcs, -⟩ := splitOnce_eq_some h1
        obtain ⟨hrest, -⟩ := splitOnce_eq_some h2
        subst hrest
        exact ⟨by simp [hcs], hc.1.1.1.1, ne_nil_of_isEmpty_eq_false hc.1.1.1.2,
          hc.1.1.2, ne_nil_of_isEmpty_eq_false hc.1.2, hc.2⟩

/-- Construction of the shared prefix matcher on a well-formed split. -/
theorem matchHostPath_append {h u i : Str} (hh : matchHostname h = true)
    (hu : u ≠ []) (hu2 : u.all isNameChar = true)
    (hi : i ≠ []) (hi2 : i.all isPathNameChar = true) :
    matchHostPath (h ++ ('/' :: (u ++ ('/' :: i)))) = some (h, u, i) := by
  have hslashu : '/' ∉ u := not_mem_of_all hu2 (by decide)
  have h1 : splitOnce '/' (h ++ ('/' :: (u ++ ('/' :: i)))) =
      some (h, u ++ ('/' :: i)) :=
    splitOnce_append _ (not_slash_mem_of_matchHostname hh)
  have h2 : splitOnce '/' (u ++ ('/' :: i)) = some (u, i) :=
    splitOnce_append _ hslashu
  unfold matchHostPath
  rw [h1]
  dsimp only
  rw [h2]
  dsimp only
  rw [if_pos]
  simp [hh, hu2, hi2, isEmpty_eq_false_of_ne_nil hu, isEmpty_eq_false_of_ne_nil hi]

/-- Every interpretation produced by any of the nine grammars is valid. -/
theorem validMatch_of_mem {path : Str} {m : MatchDict}
    (hm : m ∈ imageMatches path) : ValidMatch m := by
  have hHub : matchHostname dockerHubHost = true := by decide
  have hLib : libraryUser ≠ [] ∧ libraryUser.all isNameChar = true := by decide
  have hLatest : latestTag ≠ [] ∧ latestTag.all isShaChar = true := by decide
  rw [imageMatches, List.mem_filterMap] at hm
  obtain ⟨r, hr, hsome⟩ := hm
  rw [imageRegexes] at hr
  simp only [List.mem_cons, List.not_mem_nil, or_false] at hr
  rcases hr with rfl | rfl | rfl | rfl | rfl | rfl | rfl | rfl | rfl
  -- grammar 1: nginx
  · unfold regex_image at hsome
    split_ifs at hsome with hc
    · obtain rfl : (⟨dockerHubHost, libraryUser, path, latestTag⟩ : MatchDict) = m := by
        simpa using hsome
      simp only [Bool.and_eq_true, Bool.not_eq_true'] at hc
      exact ⟨hHub, hLib.1, hLib.2, ne_nil_of_isEmpty_eq_false hc.1,
        all_imp (fun c => isPathNameChar_of_isNameChar) hc.2, hLatest.1, hLatest.2⟩
  -- grammar 2: username/image
  · unfold regex_username_image at hsome
    rcases h1 : splitOnce '/' path with _ | ⟨u, i⟩ <;> rw [h1] at hsome <;> dsimp only at hsome
    · simp at hsome
    · split_ifs at hsome with hc
      · obtain rfl : (⟨dockerHubHost, u, i, latestTag⟩ : MatchDict) = m := by
          simpa using hsome
        simp only [Bool.and_eq_true, Bool.not_eq_true'] at hc
        exact ⟨hHub, ne_nil_of_isEmpty_eq_false hc.1.1.1,
          all_imp (fun c => isNameChar_of_alphanum) hc.1.1.2,
          ne_nil_of_isEmpty_eq_false hc.1.2,
          all_imp (fun c => isPathNameChar_of_isNameChar) hc.2, hLatest.1, hLatest.2⟩
  -- grammar 3: nginx:1.28
  · unfold regex_image_tag at hsome
    rcases h1 : splitOnce ':' path with _ | ⟨i, t⟩ <;> rw [h1] at hsome <;> dsimp only at hsome
    · simp at hsome
    · split_ifs at hsome with hc
      · obtain rfl : (⟨dockerHubHost, libraryUser, i, t⟩ : MatchDict) = m := by
          simpa using hsome
        simp only [Bool.and_eq_true, Bool.not_eq_true'] at hc
        exact ⟨hHub, hLib.1, hLib.2, ne_nil_of_isEmpty_eq_false hc.1.1.1,
          all_imp (fun c => isPathNameChar_of_isNameChar) hc.1.1.2,
          ne_nil_of_isEmpty_eq_false hc.1.2,
          all_imp (fun c => isShaChar_of_isNameChar) hc.2⟩
  -- grammar 4: username/image:1.0.0
  · unfold regex_username_image_tag at hsome
    rcases h1 : splitOnce '/' path with _ | ⟨u, rest⟩ <;> rw [h1] at hsome <;> dsimp only at hsome
    · simp at hsome
    · rcases h2 : splitOnce ':' rest with _ | ⟨i, t⟩ <;> rw [h2] at hsome <;> dsimp only at hsome
      · simp at hsome
      · split_ifs at hsome with hc
        · obtain rfl : (⟨dockerHubHost, u, i, t⟩ : MatchDict) = m := by
            simpa using hsome
          simp only [Bool.and_eq_true, Bool.not_eq_true'] at hc
          exact ⟨hHub, ne_nil_of_isEmpty_eq_false hc.1.1.1.1.1,
            all_imp (fun c => isNameChar_of_alphanum) hc.1.1.1.1.2,
            ne_nil_of_isEmpty_eq_false hc.1.1.1.2,
            all_imp (fun c => isPathNameChar_of_isNameChar) hc.1.1.2,
            ne_nil_of_isEmpty_eq_false hc.1.2,
            all_imp (fun c => isShaChar_of_isNameChar) hc.2⟩
  -- grammar 5: nginx@sha
  · unfold regex_image_sha at hsome
    rcases h1 : splitOnce '@' path with _ | ⟨i, s⟩ <;> rw [h1] at hsome <;> dsimp only at hsome
    · simp at hsome
    · split_ifs at hsome with hc
      · obtain rfl : (⟨dockerHubHost, libraryUser, i, s⟩ : MatchDict) = m := by
          simpa using hsome
        simp only [Bool.and_eq_true, Bool.not_eq_true'] at hc
        exact ⟨hHub, hLib.1, hLib.2, ne_nil_of_isEmpty_eq_false hc.1.1.1,
          all_imp (fun c => isPathNameChar_of_isNameChar) hc.1.1.2,
          ne_nil_of_isEmpty_eq_false hc.1.2, hc.2⟩
  -- grammar 6: username/image@sha
  · unfold regex_username_image_sha at hsome
    rcases h1 : splitOnce '/' path with _ | ⟨u, rest⟩ <;> rw [h1] at hsome <;> dsimp only at hsome
    · simp at hsome
    · rcases h2 : splitOnce '@' rest with _ | ⟨i, s⟩ <;> rw [h2] at hsome <;> dsimp only at hsome
      · simp at hsome
      · split_ifs at hsome with hc
        · obtain rfl : (⟨dockerHubHost, u, i, s⟩ : MatchDict) = m := by
            simpa using hsome
          simp only [Bool.and_eq_true, Bool.not_eq_true'] at hc
          exact ⟨hHub, ne_nil_of_isEmpty_eq_false hc.1.1.1.1.1,
            all_imp (fun c => isNameChar_of_alphanum) hc.1.1.1.1.2,
            ne_nil_of_isEmpty_eq_false hc.1.1.1.2,
            all_imp (fun c => isPathNameChar_of_isNameChar) hc.1.1.2,
            ne_nil_of_isEmpty_eq_false hc.1.2, hc.2⟩
  -- grammar 7: hostname/username/image
  · unfold regex_hostname_image at hsome
    rcases h1 : matchHostPath path with _ | ⟨h, u, i⟩ <;> rw [h1] at hsome <;> dsimp only at hsome
    · simp at hsome
    · obtain rfl : (⟨h, u, i, latestTag⟩ : MatchDict) = m := by simpa using hsome
      obtain ⟨-, hh, hu, hu2, hi, hi2⟩ := matchHostPath_eq_some h1
      exact ⟨hh, hu, hu2, hi, hi2, hLatest.1, hLatest.2⟩
  -- grammar 8: hostname/username/image:tag
  · unfold regex_hostname_image_tag at hsome
    rcases h1 : splitOnceRight ':' path with _ | ⟨pre, t⟩ <;> rw [h1] at hsome <;> dsimp only at hsome
    · simp at hsome
    · rcases h2 : matchHostPath pre with _ | ⟨h, u, i⟩ <;> rw [h2] at hsome <;> dsimp only at hsome
      · simp at hsome
      · split_ifs at hsome with hc
        · obtain rfl : (⟨h, u, i, t⟩ : MatchDict) = m := by simpa using hsome
          obtain ⟨-, hh, hu, hu2, hi, hi2⟩ := matchHostPath_eq_some h2
          simp only [Bool.and_eq_true, Bool.not_eq_true'] at hc
          exact ⟨hh, hu, hu2, hi, hi2, ne_nil_of_isEmpty_eq_false hc.1,
            all_imp (fun c => isShaChar_of_isNameChar) hc.2⟩
  -- grammar 9: hostname/username/image@sha
  · unfold regex_hostname_image_sha at hsome
    rcases h1 : splitOnce '@' path with _ | ⟨pre, s⟩ <;> rw [h1] at hsome <;> dsimp only at hsome
    · simp at hsome
    · rcases h2 : matchHostPath pre with _ | ⟨h, u, i⟩ <;> rw [h2] at hsome <;> dsimp only at hsome
      · simp at hsome
      · split_ifs at hsome with hc
        · obtain rfl : (⟨h, u, i, s⟩ : MatchDict) = m := by simpa using hsome
          obtain ⟨-, hh, hu, hu2, hi, hi2⟩ := matchHostPath_eq_some h2
          simp only [Bool.and_eq_true, Bool.not_eq_true'] at hc
          exact ⟨hh, hu, hu2, hi, hi2, ne_nil_of_isEmpty_eq_false hc.1, hc.2⟩

/-- On a well-formed `host/user/img:tag` string whose tag is colon-free,
grammar 8 is the only grammar that matches, and it recovers the components
exactly.  The other eight grammars fail: the bare grammars (1, 3, 5) because
the string contains `/`, the Docker Hub grammars (2, 4, 6) because the first
segment contains a dot and so is not alphanumeric, grammar 7 because the
trailing `:tag` is not valid in an image, and the `@` grammars (5, 6, 9)
because no group may contain `@`. -/
theorem imageMatches_canonical {h u i t : Str}
    (hh : matchHostname h = true)
    (hu : u ≠ []) (hu2 : u.all isNameChar = true)
    (hi : i ≠ []) (hi2 : i.all isPathNameChar = true)
    (ht : t ≠ []) (ht2 : t.all isNameChar = true) :
    imageMatches (h ++ ('/' :: (u ++ ('/' :: (i ++ (':' :: t)))))) =
      [⟨h, u, i, t⟩] := by
  set input : Str := h ++ ('/' :: (u ++ ('/' :: (i ++ (':' :: t))))) with hinput
  have hslash : '/' ∈ input := by simp [hinput]
  have hat : '@' ∉ input := by
    simp only [hinput, List.mem_append, List.mem_cons]
    rintro (hm | hm | hm | hm | hm | hm | hm)
    · exact not_at_mem_of_matchHostname hh hm
    · exact absurd hm (by decide)
    · exact not_mem_of_all hu2 (by decide) hm
    · exact absurd hm (by decide)
    · exact not_mem_of_all hi2 (by decide) hm
    · exact absurd hm (by decide)
    · exact not_mem_of_all ht2 (by decide) hm
  have hs1 : splitOnce '/' input = some (h, u ++ ('/' :: (i ++ (':' :: t)))) :=
    splitOnce_append _ (not_slash_mem_of_matchHostname hh)
  have hs2 : splitOnce '/' (u ++ ('/' :: (i ++ (':' :: t)))) =
      some (u, i ++ (':' :: t)) :=
    splitOnce_append _ (not_mem_of_all hu2 (by decide))
  have halnum : h.all Char.isAlphanum = false := not_all_alphanum_of_matchHostname hh
  -- grammar 1 fails: the string contains a slash
  have hg1 : regex_image input = none := by
    unfold regex_image
    rw [if_neg]
    simp [all_eq_false_of_mem hslash (by decide : isNameChar '/' = false)]
  -- grammar 2 fails: the first segment is a hostname, not alphanumeric
  have hg2 : regex_username_image input = none := by
    unfold regex_username_image
    rw [hs1]
    dsimp only
    rw [if_neg]
    simp [halnum]
  -- grammar 3 fails: whichever side of the first colon holds the slash
  have hg3 : regex_image_tag input = none := by
    unfold regex_image_tag
    rcases h3 : splitOnce ':' input with _ | ⟨a, b⟩
    · rfl
    · dsimp only
      obtain ⟨heq, -⟩ := splitOnce_eq_some h3
      rw [if_neg]
      rcases (by
        have := hslash
        rw [heq] at this
        simpa using this : '/' ∈ a ∨ '/' = ':' ∨ '/' ∈ b) with hm | hm | hm
      · simp [all_eq_false_of_mem hm (by decide : isNameChar '/' = false)]
      · exact absurd hm (by decide)
      · simp [all_eq_false_of_mem hm (by decide : isNameChar '/' = false)]
  -- grammar 4 fails: the first segment is a hostname, not alphanumeric
  have hg4 : regex_username_image_tag input = none := by
    unfold regex_username_image_tag
    rw [hs1]
    dsimp only
    rcases h3 : splitOnce ':' (u ++ ('/' :: (i ++ (':' :: t)))) with _ | ⟨a, b⟩
    · rfl
    · dsimp only
      rw [if_neg]
      simp [halnum]
  -- grammar 5 fails: the string contains no @
  have hg5 : regex_image_sha input = none := by
    unfold regex_image_sha
    rw [splitOnce_eq_none hat]
  -- grammar 6 fails: the remainder after the first slash contains no @
  have hg6 : regex_username_image_sha input = none := by
    unfold regex_username_image_sha
    rw [hs1]
    dsimp only
    rw [splitOnce_eq_none (fun hm => hat (by simp [hinput, hm]))]
  -- grammar 7 fails: the image part would contain the tag colon
  have hg7 : regex_hostname_image input = none := by
    unfold regex_hostname_image
    have : matchHostPath input = none := by
      unfold matchHostPath
      rw [hs1]
      dsimp only
      rw [hs2]
      dsimp only
      rw [if_neg]
      simp [all_eq_false_of_mem (by simp : ':' ∈ i ++ (':' :: t))
        (by decide : isPathNameChar ':' = false)]
    rw [this]
  -- grammar 8 matches and recovers the components
  have hshape : input = (h ++ ('/' :: (u ++ ('/' :: i)))) ++ (':' :: t) := by
    simp [hinput]
  have hg8 : regex_hostname_image_tag input = some ⟨h, u, i, t⟩ := by
    unfold regex_hostname_image_tag
    rw [hshape, splitOnceRight_append _ (not_mem_of_all ht2 (by decide))]
    dsimp only
    rw [matchHostPath_append hh hu hu2 hi hi2]
    dsimp only
    rw [if_pos]
    simp [ht2, isEmpty_eq_false_of_ne_nil ht]
  -- grammar 9 fails: the string contains no @
  have hg9 : regex_hostname_image_sha input = none := by
    unfold regex_hostname_image_sha
    rw [splitOnce_eq_none hat]
  rw [imageMatches, imageRegexes]
  simp only [List.filterMap_cons, hg1, hg2, hg3, hg4, hg5, hg6, hg7, hg8, hg9,
    List.filterMap_nil]

/-- On a well-formed `host/user/img@sha` string, grammar 9 is the only
grammar that matches, and it recovers the components exactly — whether or
not the digest contains a colon.  The bare grammars (1, 3, 5) fail on the
slashes, the Docker Hub grammars (2, 4, 6) on the dotted first segment,
grammar 7 because the image may not contain `@`, and grammar 8 because any
suffix after a last colon still holds the `@` (or the host path breaks). -/
theorem imageMatches_canonical_sha {h u i t : Str}
    (hh : matchHostname h = true)
    (hu : u ≠ []) (hu2 : u.all isNameChar = true)
    (hi : i ≠ []) (hi2 : i.all isPathNameChar = true)
    (ht : t ≠ []) (ht2 : t.all isShaChar = true) :
    imageMatches (h ++ ('/' :: (u ++ ('/' :: (i ++ ('@' :: t)))))) =
      [⟨h, u, i, t⟩] := by
  set input : Str := h ++ ('/' :: (u ++ ('/' :: (i ++ ('@' :: t))))) with hinput
  have hslash : '/' ∈ input := by simp [hinput]
  have hat : '@' ∈ input := by simp [hinput]
  have hs1 : splitOnce '/' input = some (h, u ++ ('/' :: (i ++ ('@' :: t)))) :=
    splitOnce_append _ (not_slash_mem_of_matchHostname hh)
  have hs2 : splitOnce '/' (u ++ ('/' :: (i ++ ('@' :: t)))) =
      some (u, i ++ ('@' :: t)) :=
    splitOnce_append _ (not_mem_of_all hu2 (by decide))
  have halnum : h.all Char.isAlphanum = false := not_all_alphanum_of_matchHostname hh
  have hatpre : '@' ∉ h ++ ('/' :: (u ++ ('/' :: i))) := by
    simp only [List.mem_append, List.mem_cons]
    rintro (hm | hm | hm | hm | hm)
    · exact not_at_mem_of_matchHostname hh hm
    · exact absurd hm (by decide)
    · exact not_mem_of_all hu2 (by decide) hm
    · exact absurd hm (by decide)
    · exact not_mem_of_all hi2 (by decide) hm
  have hshape : input = (h ++ ('/' :: (u ++ ('/' :: i)))) ++ ('@' :: t) := by
    simp [hinput]
  have hs5 : splitOnce '@' input = some (h ++ ('/' :: (u ++ ('/' :: i))), t) := by
    rw [hshape]
    exact splitOnce_append _ hatpre
  -- grammar 1 fails: the string contains a slash
  have hg1 : regex_image input = none := by
    unfold regex_image
    rw [if_neg]
    simp [all_eq_false_of_mem hslash (by decide : isNameChar '/' = false)]
  -- grammar 2 fails: the first segment is a hostname, not alphanumeric
  have hg2 : regex_username_image input = none := by
    unfold regex_username_image
    rw [hs1]
    dsimp only
    rw [if_neg]
    simp [halnum]
  -- grammar 3 fails: whichever side of the first colon holds the slash
  have hg3 : regex_image_tag input = none := by
    unfold regex_image_tag
    rcases h3 : splitOnce ':' input with _ | ⟨a, b⟩
    · rfl
    · dsimp only
      obtain ⟨heq, -⟩ := splitOnce_eq_some h3
      rw [if_neg]
      rcases (by
        have := hslash
        rw [heq] at this
        simpa using this : '/' ∈ a ∨ '/' = ':' ∨ '/' ∈ b) with hm | hm | hm
      · simp [all_eq_false_of_mem hm (by decide : isNameChar '/' = false)]
      · exact absurd hm (by decide)
      · simp [all_eq_false_of_mem hm (by decide : isNameChar '/' = false)]
  -- grammar 4 fails: the first segment is a hostname, not alphanumeric
  have hg4 : regex_username_image_tag input = none := by
    unfold regex_username_image_tag
    rw [hs1]
    dsimp only
    rcases h4 : splitOnce ':' (u ++ ('/' :: (i ++ ('@' :: t)))) with _ | ⟨a, b⟩
    · rfl
    · dsimp only
      rw [if_neg]
      simp [halnum]
  -- grammar 5 fails: the part before the only `@` contains a slash
  have hg5 : regex_image_sha input = none := by
    unfold regex_image_sha
    rw [hs5]
    dsimp only
    rw [if_neg]
    simp [all_eq_false_of_mem
      (show '/' ∈ h ++ ('/' :: (u ++ ('/' :: i))) by simp)
      (by decide : isNameChar '/' = false)]
  -- grammar 6 fails: the first segment is a hostname, not alphanumeric
  have hg6 : regex_username_image_sha input = none := by
    unfold regex_username_image_sha
    rw [hs1]
    dsimp only
    rcases h6 : splitOnce '@' (u ++ ('/' :: (i ++ ('@' :: t)))) with _ | ⟨a, b⟩
    · rfl
    · dsimp only
      rw [if_neg]
      simp [halnum]
  -- grammar 7 fails: the image part would contain the `@`
  have hg7 : regex_hostname_image input = none := by
    unfold regex_hostname_image
    have : matchHostPath input = none := by
      unfold matchHostPath
      rw [hs1]
      dsimp only
      rw [hs2]
      dsimp only
      rw [if_neg]
      simp [all_eq_false_of_mem (by simp : '@' ∈ i ++ ('@' :: t))
        (by decide : isPathNameChar '@' = false)]
    rw [this]
  -- grammar 8 fails: a split at the last colon either breaks the host path
  -- or leaves the `@` inside the would-be tag
  have hg8 : regex_hostname_image_tag input = none := by
    unfold regex_hostname_image_tag
    rcases h8 : splitOnceRight ':' input with _ | ⟨pre8, t8⟩
    · rfl
    · dsimp only
      rcases hmp : matchHostPath pre8 with _ | ⟨h', u', i'⟩
      · rfl
      · dsimp only
        rw [if_neg]
        obtain ⟨hpre8, hh', hu', hu2', hi', hi2'⟩ := matchHostPath_eq_some hmp
        obtain ⟨hSeq, hct8⟩ := splitOnceRight_eq_some h8
        have hat8 : '@' ∈ t8 := by
          have hm0 : '@' ∈ pre8 ++ ':' :: t8 := by rw [← hSeq]; exact hat
          rcases (by simpa using hm0 :
            '@' ∈ pre8 ∨ '@' = ':' ∨ '@' ∈ t8) with hm | hm | hm
          · exfalso
            rw [hpre8] at hm
            rcases (by simpa using hm :
              '@' ∈ h' ∨ '@' = '/' ∨ '@' ∈ u' ∨ '@' = '/' ∨ '@' ∈ i') with
              hm2 | hm2 | hm2 | hm2 | hm2
            · exact not_at_mem_of_matchHostname hh' hm2
            · exact absurd hm2 (by decide)
            · exact not_mem_of_all hu2' (by decide) hm2
            · exact absurd hm2 (by decide)
            · exact not_mem_of_all hi2' (by decide) hm2
          · exact absurd hm (by decide)
          · exact hm
        simp [all_eq_false_of_mem hat8 (by decide : isNameChar '@' = false)]
  -- grammar 9 matches and recovers the components
  have hg9 : regex_hostname_image_sha input = some ⟨h, u, i, t⟩ := by
    unfold regex_hostname_image_sha
    rw [hs5]
    dsimp only
    rw [matchHostPath_append hh hu hu2 hi hi2]
    dsimp only
    rw [if_pos]
    simp [ht2, isEmpty_eq_false_of_ne_nil ht]
  rw [imageMatches, imageRegexes]
  simp only [List.filterMap_cons, hg1, hg2, hg3, hg4, hg5, hg6, hg7, hg8, hg9,
    List.filterMap_nil]

/-- Inversion of `Image.from_path` success: exactly one grammar matched. -/
theorem from_path_eq_ok_iff {path : Str} {img : Image} :
    Image.from_path path = .ok img ↔
      ∃ m, imageMatches path = [m] ∧ m.toImage = img := by
  unfold Image.from_path
  rcases hM : imageMatches path with _ | ⟨m, rest⟩
  · simp
  · rcases rest with _ | ⟨m2, rest2⟩
    · simp
    · simp [List.length_cons]

/-- C2: for every input string, `from_path` classifies it by the number of
grammars that fully match: zero matches raises `UnparseableReference`
(`ImageParseError` "Cannot parse"), exactly one match succeeds with that
grammar's interpretation (defaults applied and the username folded into the
repository name), and more than one match raises `AmbiguousReference`
(`ImageParseError` "too many interpretations") carrying all (at least 2)
candidate interpretations rather than silently picking one. -/
theorem from_path_classifies_by_match_count (path : Str) :
    (imageMatches path = [] →
      Image.from_path path = .error (.cannotParse path)) ∧
    (∀ m, imageMatches path = [m] →
      Image.from_path path = .ok m.toImage) ∧
    (2 ≤ (imageMatches path).length →
      Image.from_path path =
        .error (.tooManyInterpretations path
          ((imageMatches path).map MatchDict.toImage)) ∧
      2 ≤ ((imageMatches path).map MatchDict.toImage).length) := by
  refine ⟨fun h0 => ?_, fun m h1 => ?_, fun h2 => ?_⟩
  · unfold Image.from_path
    rw [h0]
    rfl
  · unfold Image.from_path
    rw [h1]
    rfl
  · rcases hM : imageMatches path with _ | ⟨m, _ | ⟨m2, rest⟩⟩ <;> rw [hM] at h2
    · simp at h2
    · simp at h2
    · refine ⟨?_, by simp⟩
      unfold Image.from_path
      rw [hM]
      dsimp only
      split_ifs with ha hb
      · simp at ha
      · rfl
      · exact absurd (by simp : 1 < (List.map MatchDict.toImage (m :: m2 :: rest)).length) hb

/-- Witness for C2: `"nginx"` matches exactly one grammar and parses, while
`"???"` matches none and is rejected. -/
theorem from_path_classifies_by_match_count_witness :
    imageMatches "nginx".toList =
      [⟨dockerHubHost, libraryUser, "nginx".toList, latestTag⟩] ∧
    Image.from_path "nginx".toList =
      .ok (MatchDict.toImage ⟨dockerHubHost, libraryUser, "nginx".toList, latestTag⟩) ∧
    imageMatches "???".toList = [] ∧
    Image.from_path "???".toList = .error (.cannotParse "???".toList) :=
  ⟨by decide,
   (from_path_classifies_by_match_count "nginx".toList).2.1 _ (by decide),
   by decide,
   (from_path_classifies_by_match_count "???".toList).1 (by decide)⟩

/-- C7: `parse("nginx")` succeeds with exactly one interpretation: the host
defaults to the public registry `registry-1.docker.io`, the namespace
defaults to `library` (folded into the repository path) and the tag defaults
to `latest`. -/
theorem from_path_nginx_defaults :
    Image.from_path "nginx".toList =
      .ok ⟨"registry-1.docker.io".toList, "library/nginx".toList,
        "latest".toList⟩ ∧
    imageMatches "nginx".toList ≠ [] ∧ (imageMatches "nginx".toList).length = 1 := by
  decide

/-- C8: `from_path` is deterministic (a pure function of its input, so two
runs on the same input yield equal values), and for every successfully
parsed reference, re-parsing its canonical string form —
`hostname/name:tag` for a tag reference, `hostname/name@digest` for a
digest — yields an `Image` equal to the original parse. -/
theorem from_path_roundtrip (s : Str) (img : Image)
    (h : Image.from_path s = .ok img) :
    Image.from_path s = Image.from_path s ∧
    Image.from_path img.canonicalPath = .ok img := by
  refine ⟨rfl, ?_⟩
  obtain ⟨m, hM, rfl⟩ := from_path_eq_ok_iff.mp h
  have hmem : m ∈ imageMatches s := by
    rw [hM]; exact List.mem_singleton_self m
  obtain ⟨hh, hu, hu2, hi, hi2, ht, ht2⟩ := validMatch_of_mem hmem
  by_cases hc : ':' ∈ m.tag
  · have hcanon : m.toImage.canonicalPath =
        m.hostname ++ ('/' :: (m.username ++ ('/' :: (m.image ++ ('@' :: m.tag))))) := by
      simp [Image.canonicalPath, MatchDict.toImage, hc]
    rw [hcanon, from_path_eq_ok_iff]
    exact ⟨⟨m.hostname, m.username, m.image, m.tag⟩,
      imageMatches_canonical_sha hh hu hu2 hi hi2 ht ht2, rfl⟩
  · have ht2' : m.tag.all isNameChar = true := by
      rw [List.all_eq_true] at ht2 ⊢
      intro c hcm
      exact isNameChar_of_isShaChar_ne_colon (ht2 c hcm)
        (fun hceq => hc (hceq ▸ hcm))
    have hcanon : m.toImage.canonicalPath =
        m.hostname ++ ('/' :: (m.username ++ ('/' :: (m.image ++ (':' :: m.tag))))) := by
      simp [Image.canonicalPath, MatchDict.toImage, hc]
    rw [hcanon, from_path_eq_ok_iff]
    exact ⟨⟨m.hostname, m.username, m.image, m.tag⟩,
      imageMatches_canonical hh hu hu2 hi hi2 ht ht2', rfl⟩

/-- Witness for C8: the round trip on a tag reference (`nginx`, canonical
form `registry-1.docker.io/library/nginx:latest`) and on a digest reference
(`nginx@sha256:0123`, canonical form
`registry-1.docker.io/library/nginx@sha256:0123`). -/
theorem from_path_roundtrip_witness :
    Image.from_path
      (Image.canonicalPath ⟨"registry-1.docker.io".toList,
        "library/nginx".toList, "latest".toList⟩) =
      .ok ⟨"registry-1.docker.io".toList, "library/nginx".toList,
        "latest".toList⟩ ∧
    Image.from_path
      (Image.canonicalPath ⟨"registry-1.docker.io".toList,
        "library/nginx".toList, "sha256:0123".toList⟩) =
      .ok ⟨"registry-1.docker.io".toList, "library/nginx".toList,
        "sha256:0123".toList⟩ :=
  ⟨(from_path_roundtrip "nginx".toList
      ⟨"registry-1.docker.io".toList, "library/nginx".toList,
        "latest".toList⟩ (by decide)).2,
   (from_path_roundtrip "nginx@sha256:0123".toList
      ⟨"registry-1.docker.io".toList, "library/nginx".toList,
        "sha256:0123".toList⟩ (by decide)).2⟩

/-! ### Toolkit lemmas about the registry HTTP layer -/

theorem dictPop_eq_none {d : List (String × String)} {k : String}
    (h : d.lookup k = none) : dictPop d k = none := by
  induction d with
  | nil => rfl
  | cons p rest ih =>
    obtain ⟨k', v⟩ := p
    by_cases hk : k = k'
    · subst hk
      simp [List.lookup] at h
    · have hb : (k == k') = false := by simpa using hk
      simp only [List.lookup, hb] at h
      unfold dictPop
      rw [if_neg (fun hh => hk hh.symm), ih h]
      rfl

/-- Whatever the network does, `_get_docker_token` issues the unauthenticated
probe first, and never raises `ImageParseError`. -/
theorem get_docker_token_shape (api : ImageRepoDockerAPI) (net : Net)
    (image : Image) :
    (∃ rest, (api._get_docker_token net image).2 =
      probeRequest api image :: rest) ∧
    ∀ msg, (api._get_docker_token net image).1 ≠
      .error (.imageParseError msg) := by
  unfold ImageRepoDockerAPI._get_docker_token
  dsimp only
  cases net (probeRequest api image) with
  | connError => exact ⟨⟨[], rfl⟩, by simp⟩
  | ok r =>
    obtain ⟨status, wwwAuth, body⟩ := r
    dsimp only
    cases wwwAuth with
    | none => exact ⟨⟨[], rfl⟩, by simp⟩
    | some params =>
      dsimp only
      by_cases h4 : status ≠ 401
      · rw [if_pos h4]
        exact ⟨⟨[], rfl⟩, by simp⟩
      · rw [if_neg h4]
        rcases hd : dictPop params "realm" with _ | ⟨realm, ps⟩ <;> dsimp only
        · exact ⟨⟨[], rfl⟩, by simp⟩
        · cases net (tokenRequest api realm ps) with
          | connError => exact ⟨⟨_, rfl⟩, by simp⟩
          | ok tokenReq =>
            obtain ⟨tstatus, twww, tbody⟩ := tokenReq
            dsimp only
            cases tbody with
            | none => exact ⟨⟨_, rfl⟩, by simp⟩
            | some j =>
              dsimp only
              rcases hg : j.get "token" JValue.null with e | v <;> dsimp only
              · refine ⟨⟨_, rfl⟩, fun msg => ?_⟩
                cases j <;> simp [JValue.get] at hg <;> simp [← hg]
              · exact ⟨⟨_, rfl⟩, by simp⟩

/-- C10: `with_oauth2_token` returns a new instance with the same hostname
and the given token.  The embedding is pure, so the original instance is
unchanged by construction; the third conjunct makes the frame condition
explicit: the result depends only on the receiver's hostname, not on its
previous token. -/
theorem with_oauth2_token_spec (api : ImageRepoDockerAPI) (t : String) :
    (api.with_oauth2_token t).hostname = api.hostname ∧
    (api.with_oauth2_token t).oauth2_token = some t ∧
    ∀ old : Option String,
      ImageRepoDockerAPI.with_oauth2_token ⟨api.hostname, old⟩ t =
        api.with_oauth2_token t :=
  ⟨rfl, rfl, fun _ => rfl⟩

/-- C9: when the image hostname differs from the repository-API hostname,
`get_image_manifest` (and with it `image_exists` and `image_workdir`) raises
`ImageParseError` before issuing any registry request (the request trace is
empty); when the hostnames are equal that error is unreachable — the result
is never an `ImageParseError` — and the fetch proceeds, the first issued
request being the unauthenticated probe. -/
theorem get_image_manifest_hostname_check (api : ImageRepoDockerAPI)
    (net : Net) (image : Image) :
    (image.hostname ≠ api.hostname →
      api.get_image_manifest net image =
        (.error (.imageParseError
          "The image hostname does not match the image repository"), []) ∧
      api.image_exists net image =
        (.error (.imageParseError
          "The image hostname does not match the image repository"), []) ∧
      api.image_workdir net image =
        (.error (.imageParseError
          "The image hostname does not match the image repository"), [])) ∧
    (image.hostname = api.hostname →
      (∀ msg, (api.get_image_manifest net image).1 ≠
        .error (.imageParseError msg)) ∧
      ∃ rest, (api.get_image_manifest net image).2 =
        probeRequest api image :: rest) := by
  constructor
  · intro hne
    have hm : api.get_image_manifest net image =
        (.error (.imageParseError
          "The image hostname does not match the image repository"), []) := by
      unfold ImageRepoDockerAPI.get_image_manifest
      rw [if_pos hne]
    refine ⟨hm, ?_, ?_⟩
    · unfold ImageRepoDockerAPI.image_exists
      rw [hm]
    · unfold ImageRepoDockerAPI.image_workdir ImageRepoDockerAPI.get_image_config
      rw [hm]
  · intro heq
    obtain ⟨⟨rest0, htr⟩, herr⟩ := get_docker_token_shape api net image
    unfold ImageRepoDockerAPI.get_image_manifest
    rw [if_neg (by simp [heq])]
    rcases hT : api._get_docker_token net image with ⟨res, tr⟩
    rw [hT] at htr herr
    dsimp only at htr herr
    cases res with
    | error e =>
      dsimp only
      exact ⟨fun msg h => herr msg (by simpa using h), ⟨rest0, htr⟩⟩
    | ok token =>
      dsimp only
      cases net (manifestRequestDockerV2 image token) with
      | connError => exact ⟨by simp, ⟨_, by rw [htr]; rfl⟩⟩
      | ok res1 =>
        dsimp only
        by_cases h200 : res1.status ≠ 200
        · rw [if_pos h200]
          cases net (manifestRequestOciV1 image token) with
          | connError => exact ⟨by simp, ⟨_, by rw [htr]; rfl⟩⟩
          | ok res2 =>
            dsimp only
            by_cases h200b : res2.status ≠ 200
            · rw [if_pos h200b]
              exact ⟨by simp, ⟨_, by rw [htr]; rfl⟩⟩
            · rw [if_neg h200b]
              cases res2.body with
              | none => exact ⟨by simp, ⟨_, by rw [htr]; rfl⟩⟩
              | some j => exact ⟨by simp, ⟨_, by rw [htr]; rfl⟩⟩
        · rw [if_neg h200]
          cases res1.body with
          | none => exact ⟨by simp, ⟨_, by rw [htr]; rfl⟩⟩
          | some j => exact ⟨by simp, ⟨_, by rw [htr]; rfl⟩⟩

/-- Witness for C9: a mismatched hostname raises with an empty trace, and a
matched hostname on a dead network still issues the probe first and fails
with a connection error rather than a parse error. -/
theorem get_image_manifest_hostname_check_witness :
    ImageRepoDockerAPI.get_image_manifest ⟨"example.com".toList, none⟩
        (fun _ => .connError) ⟨"other.org".toList, "u/i".toList, "t".toList⟩ =
      (.error (.imageParseError
        "The image hostname does not match the image repository"), []) ∧
    ∃ rest,
      (ImageRepoDockerAPI.get_image_manifest ⟨"example.com".toList, none⟩
          (fun _ => .connError)
          ⟨"example.com".toList, "u/i".toList, "t".toList⟩).2 =
        probeRequest ⟨"example.com".toList, none⟩
          ⟨"example.com".toList, "u/i".toList, "t".toList⟩ :: rest :=
  ⟨((get_image_manifest_hostname_check _ _ _).1 (by decide)).1,
   ((get_image_manifest_hostname_check _ _ _).2 rfl).2⟩

/-- C4: a 401 probe response carrying a `Www-Authenticate` header whose
parameters lack a `realm` makes `_get_docker_token` raise (the `KeyError`
from `params.pop("realm")`, the failure the spec names
`AuthenticationRejected`); it never returns a token result, so the caller
cannot proceed unauthenticated. -/
theorem get_docker_token_missing_realm (api : ImageRepoDockerAPI) (net : Net)
    (image : Image) (r : HttpResponse) (params : List (String × String))
    (hp : net (probeRequest api image) = .ok r)
    (h401 : r.status = 401)
    (hw : r.wwwAuthenticate = some params)
    (hr : params.lookup "realm" = none) :
    api._get_docker_token net image =
      (.error (.keyError "realm"), [probeRequest api image]) ∧
    ∀ v tr, api._get_docker_token net image ≠ (.ok v, tr) := by
  have heq : api._get_docker_token net image =
      (.error (.keyError "realm"), [probeRequest api image]) := by
    unfold ImageRepoDockerAPI._get_docker_token
    dsimp only
    rw [hp]
    dsimp only
    rw [hw]
    dsimp only
    rw [if_neg (by simp [h401]), dictPop_eq_none hr]
  exact ⟨heq, fun v tr h => by rw [heq] at h; simp at h⟩

/-- Witness for C4: a concrete 401 challenge whose only parameter is
`service`. -/
theorem get_docker_token_missing_realm_witness :
    ImageRepoDockerAPI._get_docker_token ⟨"example.com".toList, none⟩
        (fun req =>
          if req = probeRequest ⟨"example.com".toList, none⟩
              ⟨"example.com".toList, "u/i".toList, "t".toList⟩ then
            .ok ⟨401, some [("service", "registry")], none⟩
          else .connError)
        ⟨"example.com".toList, "u/i".toList, "t".toList⟩ =
      (.error (.keyError "realm"),
        [probeRequest ⟨"example.com".toList, none⟩
          ⟨"example.com".toList, "u/i".toList, "t".toList⟩]) :=
  (get_docker_token_missing_realm _ _ _
    ⟨401, some [("service", "registry")], none⟩ [("service", "registry")]
    (by rw [if_pos rfl]) rfl rfl (by decide)).1

/-- C6 (amended): a `requests.ConnectionError` during the unauthenticated
probe is caught by `_get_docker_token` and treated as "no token" — the call
returns `None` and does not raise.  The registry being unreachable still
surfaces as an error one step later: the manifest request itself is not
guarded, so `image_exists` on a dead network raises `ConnectionError`
(`RegistryUnreachable`) rather than reporting the image as absent. -/
theorem probe_connection_error_swallowed (api : ImageRepoDockerAPI)
    (net : Net) (image : Image)
    (hp : net (probeRequest api image) = .connError) :
    api._get_docker_token net image = (.ok .null, [probeRequest api image]) ∧
    (image.hostname = api.hostname →
      net (manifestRequestDockerV2 image .null) = .connError →
      api.image_exists net image =
        (.error .connectionError,
          [probeRequest api image, manifestRequestDockerV2 image .null])) := by
  have htok : api._get_docker_token net image =
      (.ok .null, [probeRequest api image]) := by
    unfold ImageRepoDockerAPI._get_docker_token
    dsimp only
    rw [hp]
  refine ⟨htok, fun heq hm => ?_⟩
  unfold ImageRepoDockerAPI.image_exists ImageRepoDockerAPI.get_image_manifest
  rw [if_neg (by simp [heq]), htok]
  dsimp only
  rw [hm]
  rfl

/-- Counterexample to C6 as stated: on a network where every request raises
`ConnectionError`, the probe failure is not an error — `_get_docker_token`
returns the "no auth required" result `None` — contradicting the claim that
a network-level probe failure always fails with `RegistryUnreachable`. -/
theorem probe_connection_error_counterexample :
    ImageRepoDockerAPI._get_docker_token ⟨"example.com".toList, none⟩
        (fun _ => .connError)
        ⟨"example.com".toList, "u/i".toList, "t".toList⟩ =
      (.ok .null,
        [probeRequest ⟨"example.com".toList, none⟩
          ⟨"example.com".toList, "u/i".toList, "t".toList⟩]) ∧
    ∀ e tr,
      ImageRepoDockerAPI._get_docker_token ⟨"example.com".toList, none⟩
          (fun _ => .connError)
          ⟨"example.com".toList, "u/i".toList, "t".toList⟩ ≠
        (.error e, tr) := by
  have h : ImageRepoDockerAPI._get_docker_token ⟨"example.com".toList, none⟩
      (fun _ => .connError)
      ⟨"example.com".toList, "u/i".toList, "t".toList⟩ =
      (.ok .null,
        [probeRequest ⟨"example.com".toList, none⟩
          ⟨"example.com".toList, "u/i".toList, "t".toList⟩]) := rfl
  exact ⟨h, fun e tr hc => by rw [h] at hc; simp at hc⟩

/-- Witness for C6 (amended): the dead network instantiation. -/
theorem probe_connection_error_swallowed_witness :
    ImageRepoDockerAPI.image_exists ⟨"example.com".toList, none⟩
        (fun _ => .connError)
        ⟨"example.com".toList, "u/i".toList, "t".toList⟩ =
      (.error .connectionError,
        [probeRequest ⟨"example.com".toList, none⟩
          ⟨"example.com".toList, "u/i".toList, "t".toList⟩,
         manifestRequestDockerV2
          ⟨"example.com".toList, "u/i".toList, "t".toList⟩ .null]) :=
  (probe_connection_error_swallowed _ _ _ rfl).2 rfl rfl

/-- C5 (amended): in the token exchange, a configured credential is attached
as HTTP Basic auth with `base64("oauth2:" + secretToken)`; a `token` field
present in the JSON body of the exchange response yields that token and an
absent `token` field yields `None` (proceed unauthenticated), in both cases
regardless of the response status — there is no special case for an explicit
`403`, which is treated like any other status. -/
theorem get_docker_token_exchange_amended (api : ImageRepoDockerAPI)
    (net : Net) (image : Image) (r tresp : HttpResponse)
    (wparams params : List (String × String)) (realm : String)
    (hp : net (probeRequest api image) = .ok r)
    (h401 : r.status = 401)
    (hw : r.wwwAuthenticate = some wparams)
    (hpop : dictPop wparams "realm" = some (realm, params))
    (hex : net (tokenRequest api realm params) = .ok tresp) :
    (∀ tok, api.oauth2_token = some tok → tok ≠ "" →
      (tokenRequest api realm params).headers =
        [("Accept", "application/json"),
         ("Authorization", "Basic " ++ base64UrlsafeEncode ("oauth2:" ++ tok))]) ∧
    (∀ fields v, tresp.body = some (.obj fields) →
      fields.lookup "token" = some v →
      api._get_docker_token net image =
        (.ok v, [probeRequest api image, tokenRequest api realm params])) ∧
    (∀ fields, tresp.body = some (.obj fields) →
      fields.lookup "token" = none →
      api._get_docker_token net image =
        (.ok .null, [probeRequest api image, tokenRequest api realm params])) := by
  have hbase : ∀ fields, tresp.body = some (.obj fields) →
      api._get_docker_token net image =
        (.ok ((fields.lookup "token").getD .null),
          [probeRequest api image, tokenRequest api realm params]) := by
    intro fields hb
    unfold ImageRepoDockerAPI._get_docker_token
    dsimp only
    rw [hp]
    dsimp only
    rw [hw]
    dsimp only
    rw [if_neg (by simp [h401]), hpop]
    dsimp only
    rw [hex]
    dsimp only
    rw [hb]
    dsimp only
    simp [JValue.get]
  refine ⟨fun tok htok hne => ?_, fun fields v hb hl => ?_, fun fields hb hl => ?_⟩
  · simp [tokenRequest, htok, hne, dictSet]
  · rw [hbase fields hb, hl]
    rfl
  · rw [hbase fields hb, hl]
    rfl

/-- Counterexample to C5 as stated: an exchange response with status `403`
whose JSON body carries a token is not `AuthenticationRejected` — the code
performs no status check at all and happily returns the token. -/
theorem get_docker_token_403_counterexample :
    ImageRepoDockerAPI._get_docker_token ⟨"example.com".toList, none⟩
        (fun req =>
          if req.url = "https://auth.example.com/token" then
            .ok ⟨403, none, some (.obj [("token", .str "t0k3n")])⟩
          else .ok ⟨401,
            some [("realm", "https://auth.example.com/token"),
              ("service", "registry")], none⟩)
        ⟨"example.com".toList, "u/i".toList, "t".toList⟩ =
      (.ok (.str "t0k3n"),
        [probeRequest ⟨"example.com".toList, none⟩
          ⟨"example.com".toList, "u/i".toList, "t".toList⟩,
         tokenRequest ⟨"example.com".toList, none⟩
          "https://auth.example.com/token" [("service", "registry")]]) ∧
    ∀ e tr,
      ImageRepoDockerAPI._get_docker_token ⟨"example.com".toList, none⟩
          (fun req =>
            if req.url = "https://auth.example.com/token" then
              .ok ⟨403, none, some (.obj [("token", .str "t0k3n")])⟩
            else .ok ⟨401,
              some [("realm", "https://auth.example.com/token"),
                ("service", "registry")], none⟩)
          ⟨"example.com".toList, "u/i".toList, "t".toList⟩ ≠
        (.error e, tr) := by
  constructor
  · rfl
  · intro e tr hc
    rw [(by rfl :
      ImageRepoDockerAPI._get_docker_token ⟨"example.com".toList, none⟩
          (fun req =>
            if req.url = "https://auth.example.com/token" then
              .ok ⟨403, none, some (.obj [("token", .str "t0k3n")])⟩
            else .ok ⟨401,
              some [("realm", "https://auth.example.com/token"),
                ("service", "registry")], none⟩)
          ⟨"example.com".toList, "u/i".toList, "t".toList⟩ =
        (.ok (.str "t0k3n"),
          [probeRequest ⟨"example.com".toList, none⟩
            ⟨"example.com".toList, "u/i".toList, "t".toList⟩,
           tokenRequest ⟨"example.com".toList, none⟩
            "https://auth.example.com/token" [("service", "registry")]]))] at hc
    simp at hc

/-- Witness for C5 (amended): a credentialed exchange whose `200` JSON body
carries a token yields exactly that token. -/
theorem get_docker_token_exchange_amended_witness :
    (tokenRequest ⟨"example.com".toList, some "s3cret"⟩
        "https://auth.example.com/token" [("service", "registry")]).headers =
      [("Accept", "application/json"),
       ("Authorization", "Basic " ++ base64UrlsafeEncode "oauth2:s3cret")] ∧
    ImageRepoDockerAPI._get_docker_token ⟨"example.com".toList, some "s3cret"⟩
        (fun req =>
          if req.url = "https://auth.example.com/token" then
            .ok ⟨200, none, some (.obj [("token", .str "t0k3n")])⟩
          else .ok ⟨401,
            some [("realm", "https://auth.example.com/token"),
              ("service", "registry")], none⟩)
        ⟨"example.com".toList, "u/i".toList, "t".toList⟩ =
      (.ok (.str "t0k3n"),
        [probeRequest ⟨"example.com".toList, some "s3cret"⟩
          ⟨"example.com".toList, "u/i".toList, "t".toList⟩,
         tokenRequest ⟨"example.com".toList, some "s3cret"⟩
          "https://auth.example.com/token" [("service", "registry")]]) :=
  ⟨(get_docker_token_exchange_amended ⟨"example.com".toList, some "s3cret"⟩
      (fun req =>
        if req.url = "https://auth.example.com/token" then
          .ok ⟨200, none, some (.obj [("token", .str "t0k3n")])⟩
        else .ok ⟨401,
          some [("realm", "https://auth.example.com/token"),
            ("service", "registry")], none⟩)
      ⟨"example.com".toList, "u/i".toList, "t".toList⟩
      ⟨401, some [("realm", "https://auth.example.com/token"),
        ("service", "registry")], none⟩
      ⟨200, none, some (.obj [("token", .str "t0k3n")])⟩
      [("realm", "https://auth.example.com/token"), ("service", "registry")]
      [("service", "registry")] "https://auth.example.com/token"
      rfl rfl rfl (by decide) rfl).1 "s3cret" rfl (by decide),
   (get_docker_token_exchange_amended ⟨"example.com".toList, some "s3cret"⟩
      (fun req =>
        if req.url = "https://auth.example.com/token" then
          .ok ⟨200, none, some (.obj [("token", .str "t0k3n")])⟩
        else .ok ⟨401,
          some [("realm", "https://auth.example.com/token"),
            ("service", "registry")], none⟩)
      ⟨"example.com".toList, "u/i".toList, "t".toList⟩
      ⟨401, some [("realm", "https://auth.example.com/token"),
        ("service", "registry")], none⟩
      ⟨200, none, some (.obj [("token", .str "t0k3n")])⟩
      [("realm", "https://auth.example.com/token"), ("service", "registry")]
      [("service", "registry")] "https://auth.example.com/token"
      rfl rfl rfl (by decide) rfl).2.1 [("token", .str "t0k3n")]
      (.str "t0k3n") rfl rfl⟩

/-- C1 (amended): `get_image_manifest` performs at most two manifest
attempts: a first GET with `Accept` set to the Docker V2 media type and,
only if that response status is not 200, exactly one retry with `Accept`
set to the OCI V1 media type (the request trace beyond the token exchange
is exactly one or two manifest requests).  `image_exists` is true whenever
the primary request returns 200 with a JSON body other than `null`, true
when only the OCI fallback returns 200 with such a body, and false — a
normal result, not an error — when both requests return 404.  (A 200
response whose body is not parseable JSON raises instead; hence the body
provisos.) -/
theorem get_image_manifest_negotiation_amended (api : ImageRepoDockerAPI)
    (net : Net) (image : Image) (token : JValue) (ttr : List HttpRequest)
    (r1 : HttpResponse)
    (hh : image.hostname = api.hostname)
    (htok : api._get_docker_token net image = (.ok token, ttr))
    (h1 : net (manifestRequestDockerV2 image token) = .ok r1) :
    (r1.status = 200 →
      (api.get_image_manifest net image).2 =
        ttr ++ [manifestRequestDockerV2 image token] ∧
      ∀ j, r1.body = some j → j.isNone = false →
        api.image_exists net image =
          (.ok true, ttr ++ [manifestRequestDockerV2 image token])) ∧
    (r1.status ≠ 200 →
      ∀ r2, net (manifestRequestOciV1 image token) = .ok r2 →
        (api.get_image_manifest net image).2 =
          ttr ++ [manifestRequestDockerV2 image token,
            manifestRequestOciV1 image token] ∧
        (r2.status = 200 → ∀ j, r2.body = some j → j.isNone = false →
          api.image_exists net image =
            (.ok true, ttr ++ [manifestRequestDockerV2 image token,
              manifestRequestOciV1 image token])) ∧
        (r1.status = 404 → r2.status = 404 →
          api.image_exists net image =
            (.ok false, ttr ++ [manifestRequestDockerV2 image token,
              manifestRequestOciV1 image token]))) := by
  constructor
  · intro h200
    have hman : ∀ j, r1.body = some j →
        api.get_image_manifest net image =
          (.ok j, ttr ++ [manifestRequestDockerV2 image token]) := by
      intro j hb
      unfold ImageRepoDockerAPI.get_image_manifest
      rw [if_neg (by simp [hh]), htok]
      dsimp only
      rw [h1]
      dsimp only
      rw [if_neg (by simp [h200]), hb]
    constructor
    · unfold ImageRepoDockerAPI.get_image_manifest
      rw [if_neg (by simp [hh]), htok]
      dsimp only
      rw [h1]
      dsimp only
      rw [if_neg (by simp [h200])]
      cases r1.body <;> rfl
    · intro j hb hj
      unfold ImageRepoDockerAPI.image_exists
      rw [hman j hb]
      simp [hj]
  · intro hn200 r2 h2
    refine ⟨?_, ?_, ?_⟩
    · unfold ImageRepoDockerAPI.get_image_manifest
      rw [if_neg (by simp [hh]), htok]
      dsimp only
      rw [h1]
      dsimp only
      rw [if_pos hn200, h2]
      dsimp only
      by_cases hs2 : r2.status ≠ 200
      · rw [if_pos hs2]
      · rw [if_neg hs2]
        cases r2.body <;> rfl
    · intro hs200 j hb hj
      have hman : api.get_image_manifest net image =
          (.ok j, ttr ++ [manifestRequestDockerV2 image token,
            manifestRequestOciV1 image token]) := by
        unfold ImageRepoDockerAPI.get_image_manifest
        rw [if_neg (by simp [hh]), htok]
        dsimp only
        rw [h1]
        dsimp only
        rw [if_pos hn200, h2]
        dsimp only
        rw [if_neg (by simp [hs200]), hb]
      unfold ImageRepoDockerAPI.image_exists
      rw [hman]
      simp [hj]
    · intro h404a h404b
      have hman : api.get_image_manifest net image =
          (.ok .null, ttr ++ [manifestRequestDockerV2 image token,
            manifestRequestOciV1 image token]) := by
        unfold ImageRepoDockerAPI.get_image_manifest
        rw [if_neg (by simp [hh]), htok]
        dsimp only
        rw [h1]
        dsimp only
        rw [if_pos hn200, h2]
        dsimp only
        rw [if_pos (by simp [h404b])]
      unfold ImageRepoDockerAPI.image_exists
      rw [hman]
      rfl

/-- Counterexample to C1 as stated: a primary manifest response with status
200 but a body that is not valid JSON makes `image_exists` raise
`JSONDecodeError` rather than return `true`. -/
theorem get_image_manifest_negotiation_counterexample :
    ImageRepoDockerAPI.image_exists ⟨"example.com".toList, none⟩
        (fun req =>
          if req.headers = [] then .ok ⟨200, none, none⟩
          else if req.headers = [("Accept", manifestTypeDockerV2)] then
            .ok ⟨200, none, none⟩
          else .connError)
        ⟨"example.com".toList, "u/i".toList, "t".toList⟩ =
      (.error .jsonDecodeError,
        [probeRequest ⟨"example.com".toList, none⟩
          ⟨"example.com".toList, "u/i".toList, "t".toList⟩,
         manifestRequestDockerV2
          ⟨"example.com".toList, "u/i".toList, "t".toList⟩ .null]) ∧
    ∀ tr,
      ImageRepoDockerAPI.image_exists ⟨"example.com".toList, none⟩
          (fun req =>
            if req.headers = [] then .ok ⟨200, none, none⟩
            else if req.headers = [("Accept", manifestTypeDockerV2)] then
              .ok ⟨200, none, none⟩
            else .connError)
          ⟨"example.com".toList, "u/i".toList, "t".toList⟩ ≠
        (.ok true, tr) := by
  constructor
  · decide
  · intro tr hc
    rw [(by decide :
      ImageRepoDockerAPI.image_exists ⟨"example.com".toList, none⟩
          (fun req =>
            if req.headers = [] then .ok ⟨200, none, none⟩
            else if req.headers = [("Accept", manifestTypeDockerV2)] then
              .ok ⟨200, none, none⟩
            else .connError)
          ⟨"example.com".toList, "u/i".toList, "t".toList⟩ =
        (.error .jsonDecodeError,
          [probeRequest ⟨"example.com".toList, none⟩
            ⟨"example.com".toList, "u/i".toList, "t".toList⟩,
           manifestRequestDockerV2
            ⟨"example.com".toList, "u/i".toList, "t".toList⟩ .null]))] at hc
    simp at hc

/-- Witness for C1 (amended): a primary 200 hit (one attempt), an OCI
fallback hit (two attempts), and a double 404 (exists = false). -/
theorem get_image_manifest_negotiation_amended_witness :
    ImageRepoDockerAPI.image_exists ⟨"example.com".toList, none⟩
        (fun req =>
          if req.headers = [] then .ok ⟨200, none, none⟩
          else if req.headers = [("Accept", manifestTypeDockerV2)] then
            .ok ⟨200, none, some (.obj [])⟩
          else .connError)
        ⟨"example.com".toList, "u/i".toList, "t".toList⟩ =
      (.ok true,
        [probeRequest ⟨"example.com".toList, none⟩
          ⟨"example.com".toList, "u/i".toList, "t".toList⟩,
         manifestRequestDockerV2
          ⟨"example.com".toList, "u/i".toList, "t".toList⟩ .null]) ∧
    ImageRepoDockerAPI.image_exists ⟨"example.com".toList, none⟩
        (fun req =>
          if req.headers = [] then .ok ⟨200, none, none⟩
          else if req.headers = [("Accept", manifestTypeDockerV2)] then
            .ok ⟨404, none, none⟩
          else if req.headers = [("Accept", manifestTypeOciV1)] then
            .ok ⟨200, none, some (.obj [])⟩
          else .connError)
        ⟨"example.com".toList, "u/i".toList, "t".toList⟩ =
      (.ok true,
        [probeRequest ⟨"example.com".toList, none⟩
          ⟨"example.com".toList, "u/i".toList, "t".toList⟩,
         manifestRequestDockerV2
          ⟨"example.com".toList, "u/i".toList, "t".toList⟩ .null,
         manifestRequestOciV1
          ⟨"example.com".toList, "u/i".toList, "t".toList⟩ .null]) ∧
    ImageRepoDockerAPI.image_exists ⟨"example.com".toList, none⟩
        (fun req =>
          if req.headers = [] then .ok ⟨200, none, none⟩
          else .ok ⟨404, none, none⟩)
        ⟨"example.com".toList, "u/i".toList, "t".toList⟩ =
      (.ok false,
        [probeRequest ⟨"example.com".toList, none⟩
          ⟨"example.com".toList, "u/i".toList, "t".toList⟩,
         manifestRequestDockerV2
          ⟨"example.com".toList, "u/i".toList, "t".toList⟩ .null,
         manifestRequestOciV1
          ⟨"example.com".toList, "u/i".toList, "t".toList⟩ .null]) :=
  ⟨((get_image_manifest_negotiation_amended ⟨"example.com".toList, none⟩
      (fun req =>
        if req.headers = [] then .ok ⟨200, none, none⟩
        else if req.headers = [("Accept", manifestTypeDockerV2)] then
          .ok ⟨200, none, some (.obj [])⟩
        else .connError)
      ⟨"example.com".toList, "u/i".toList, "t".toList⟩ .null
      [probeRequest ⟨"example.com".toList, none⟩
        ⟨"example.com".toList, "u/i".toList, "t".toList⟩]
      ⟨200, none, some (.obj [])⟩ rfl rfl rfl).1 rfl).2
      (.obj []) rfl rfl,
   ((get_image_manifest_negotiation_amended ⟨"example.com".toList, none⟩
      (fun req =>
        if req.headers = [] then .ok ⟨200, none, none⟩
        else if req.headers = [("Accept", manifestTypeDockerV2)] then
          .ok ⟨404, none, none⟩
        else if req.headers = [("Accept", manifestTypeOciV1)] then
          .ok ⟨200, none, some (.obj [])⟩
        else .connError)
      ⟨"example.com".toList, "u/i".toList, "t".toList⟩ .null
      [probeRequest ⟨"example.com".toList, none⟩
        ⟨"example.com".toList, "u/i".toList, "t".toList⟩]
      ⟨404, none, none⟩ rfl rfl rfl).2 (by decide)
      ⟨200, none, some (.obj [])⟩ rfl).2.1 rfl (.obj []) rfl rfl,
   ((get_image_manifest_negotiation_amended ⟨"example.com".toList, none⟩
      (fun req =>
        if req.headers = [] then .ok ⟨200, none, none⟩
        else .ok ⟨404, none, none⟩)
      ⟨"example.com".toList, "u/i".toList, "t".toList⟩ .null
      [probeRequest ⟨"example.com".toList, none⟩
        ⟨"example.com".toList, "u/i".toList, "t".toList⟩]
      ⟨404, none, none⟩ rfl rfl rfl).2 (by decide)
      ⟨404, none, none⟩ rfl).2.2 rfl rfl⟩

/-- C3 (amended): given the retrieved image config, `image_workdir` returns
the configured `WorkingDir` (as a POSIX path) when the config carries a
non-empty one, returns the default `/` when the config omits `WorkingDir`,
holds the empty string, or omits the nested `config` object entirely — but
when no config could be retrieved at all (manifest absent, missing config
digest, blob fetch failure) it returns `None` (which the caller in
`api/notebooks.py` replaces with `/`), not `/` itself; and a config blob
whose body is not valid JSON raises rather than defaulting. -/
theorem image_workdir_amended (api : ImageRepoDockerAPI) (net : Net)
    (image : Image) (config : JValue) (tr : List HttpRequest)
    (hcfg : api.get_image_config net image = (.ok config, tr)) :
    (config = .null → api.image_workdir net image = (.ok none, tr)) ∧
    ∀ cf, config = .obj cf →
      (∀ nf, cf.lookup "config" = some (.obj nf) →
        (∀ w, nf.lookup "WorkingDir" = some (.str w) → w ≠ "" →
          api.image_workdir net image = (.ok (some (posixPath w)), tr)) ∧
        (nf.lookup "WorkingDir" = none →
          api.image_workdir net image = (.ok (some (posixPath "/")), tr)) ∧
        (nf.lookup "WorkingDir" = some (.str "") →
          api.image_workdir net image = (.ok (some (posixPath "/")), tr))) ∧
      (cf.lookup "config" = none →
        api.image_workdir net image = (.ok (some (posixPath "/")), tr)) := by
  constructor
  · intro hnull
    subst hnull
    unfold ImageRepoDockerAPI.image_workdir
    rw [hcfg]
    rfl
  · intro cf hobj
    subst hobj
    have hstart : ∀ nested : JValue, cf.lookup "config" = some nested →
        api.image_workdir net image =
          (match nested with
           | .null => (.ok none, tr)
           | .obj nf =>
             (match (nf.lookup "WorkingDir").getD (.str "/") with
              | .str s => (.ok (some (posixPath (if s = "" then "/" else s))), tr)
              | _ => (.error .typeError, tr))
           | _ => (.error .attributeError, tr)) := by
      intro nested hl
      unfold ImageRepoDockerAPI.image_workdir
      rw [hcfg]
      dsimp only
      rw [show (JValue.obj cf).get "config" (.obj []) = .ok nested by
        simp [JValue.get, hl]]
      cases nested with
      | null => rfl
      | obj nf =>
        dsimp only
        rw [show (JValue.obj nf).get "WorkingDir" (.str "/") =
            .ok ((nf.lookup "WorkingDir").getD (.str "/")) by simp [JValue.get]]
        rcases hw : (nf.lookup "WorkingDir").getD (.str "/") with _ | b | n | s | e | f
        · rfl
        · rfl
        · rfl
        · by_cases hs : s = ""
          · subst hs
            simp [JValue.isNone, JValue.eqEmptyString]
          · simp [JValue.isNone, JValue.eqEmptyString, hs]
        · rfl
        · rfl
      | bool b => rfl
      | num n => rfl
      | str s => rfl
      | arr a => rfl
    refine ⟨fun nf hnf => ⟨fun w hw hne => ?_, fun hw => ?_, fun hw => ?_⟩,
      fun hnone => ?_⟩
    · rw [hstart (.obj nf) hnf]
      simp [hw, hne]
    · rw [hstart (.obj nf) hnf]
      simp [hw]
    · rw [hstart (.obj nf) hnf]
      simp [hw]
    · unfold ImageRepoDockerAPI.image_workdir
      rw [hcfg]
      dsimp only
      rw [show (JValue.obj cf).get "config" (.obj []) = .ok (.obj []) by
        simp [JValue.get, hnone]]
      rfl

/-- Counterexample to C3 as stated: when the manifest is absent (both
manifest requests return 404) `image_workdir` returns `None`, not the
default `/`; and when the config blob body is not valid JSON it raises
`JSONDecodeError` instead of returning `/`.  So the function is neither
total-with-default nor exception-free. -/
theorem image_workdir_counterexample :
    ImageRepoDockerAPI.image_workdir ⟨"example.com".toList, none⟩
        (fun req =>
          if req.headers = [] then .ok ⟨200, none, none⟩
          else .ok ⟨404, none, none⟩)
        ⟨"example.com".toList, "u/i".toList, "t".toList⟩ =
      (.ok none,
        [probeRequest ⟨"example.com".toList, none⟩
          ⟨"example.com".toList, "u/i".toList, "t".toList⟩,
         manifestRequestDockerV2
          ⟨"example.com".toList, "u/i".toList, "t".toList⟩ .null,
         manifestRequestOciV1
          ⟨"example.com".toList, "u/i".toList, "t".toList⟩ .null]) ∧
    (∀ tr p,
      ImageRepoDockerAPI.image_workdir ⟨"example.com".toList, none⟩
          (fun req =>
            if req.headers = [] then .ok ⟨200, none, none⟩
            else .ok ⟨404, none, none⟩)
          ⟨"example.com".toList, "u/i".toList, "t".toList⟩ ≠
        (.ok (some p), tr)) ∧
    (ImageRepoDockerAPI.image_workdir ⟨"example.com".toList, none⟩
        (fun req =>
          if req.headers = [] then .ok ⟨200, none, none⟩
          else if req.headers = [("Accept", manifestTypeDockerV2)] then
            .ok ⟨200, none,
              some (.obj [("config", .obj [("digest", .str "sha256:abc")])])⟩
          else if req.headers.lookup "Accept" = some "application/json" then
            .ok ⟨200, none, none⟩
          else .connError)
        ⟨"example.com".toList, "u/i".toList, "t".toList⟩).1 =
      .error .jsonDecodeError := by
  refine ⟨by decide, fun tr p hc => ?_, by decide⟩
  rw [(by decide :
    ImageRepoDockerAPI.image_workdir ⟨"example.com".toList, none⟩
        (fun req =>
          if req.headers = [] then .ok ⟨200, none, none⟩
          else .ok ⟨404, none, none⟩)
        ⟨"example.com".toList, "u/i".toList, "t".toList⟩ =
      (.ok none,
        [probeRequest ⟨"example.com".toList, none⟩
          ⟨"example.com".toList, "u/i".toList, "t".toList⟩,
         manifestRequestDockerV2
          ⟨"example.com".toList, "u/i".toList, "t".toList⟩ .null,
         manifestRequestOciV1
          ⟨"example.com".toList, "u/i".toList, "t".toList⟩ .null]))] at hc
  simp at hc

/-- Witness for C3 (amended): a full successful chain where the config blob
carries `WorkingDir = "/home/jovyan"`. -/
theorem image_workdir_amended_witness :
    ImageRepoDockerAPI.image_workdir ⟨"example.com".toList, none⟩
        (fun req =>
          if req.headers = [] then .ok ⟨200, none, none⟩
          else if req.headers = [("Accept", manifestTypeDockerV2)] then
            .ok ⟨200, none,
              some (.obj [("config", .obj [("digest", .str "sha256:abc")])])⟩
          else if req.headers.lookup "Accept" = some "application/json" then
            .ok ⟨200, none,
              some (.obj [("config",
                .obj [("WorkingDir", .str "/home/jovyan")])])⟩
          else .connError)
        ⟨"example.com".toList, "u/i".toList, "t".toList⟩ =
      (.ok (some "/home/jovyan"),
        [probeRequest ⟨"example.com".toList, none⟩
          ⟨"example.com".toList, "u/i".toList, "t".toList⟩,
         manifestRequestDockerV2
          ⟨"example.com".toList, "u/i".toList, "t".toList⟩ .null,
         probeRequest ⟨"example.com".toList, none⟩
          ⟨"example.com".toList, "u/i".toList, "t".toList⟩,
         blobRequest ⟨"example.com".toList, "u/i".toList, "t".toList⟩
          (.str "sha256:abc") .null]) := by
  have h := (((image_workdir_amended ⟨"example.com".toList, none⟩
      (fun req =>
        if req.headers = [] then .ok ⟨200, none, none⟩
        else if req.headers = [("Accept", manifestTypeDockerV2)] then
          .ok ⟨200, none,
            some (.obj [("config", .obj [("digest", .str "sha256:abc")])])⟩
        else if req.headers.lookup "Accept" = some "application/json" then
          .ok ⟨200, none,
            some (.obj [("config",
              .obj [("WorkingDir", .str "/home/jovyan")])])⟩
        else .connError)
      ⟨"example.com".toList, "u/i".toList, "t".toList⟩
      (.obj [("config", .obj [("WorkingDir", .str "/home/jovyan")])])
      [probeRequest ⟨"example.com".toList, none⟩
        ⟨"example.com".toList, "u/i".toList, "t".toList⟩,
       manifestRequestDockerV2
        ⟨"example.com".toList, "u/i".toList, "t".toList⟩ .null,
       probeRequest ⟨"example.com".toList, none⟩
        ⟨"example.com".toList, "u/i".toList, "t".toList⟩,
       blobRequest ⟨"example.com".toList, "u/i".toList, "t".toList⟩
        (.str "sha256:abc") .null]
      rfl).2 [("config", .obj [("WorkingDir", .str "/home/jovyan")])]
      rfl).1 [("WorkingDir", .str "/home/jovyan")] rfl).1
      "/home/jovyan" rfl (by decide)
  rw [(by decide : posixPath "/home/jovyan" = "/home/jovyan")] at h
  exact h

end RenkuNotebooks
